import Mathlib

/-!
Verification development for the spira repository: a shallow embedding of
the notebook parser (`src/spira/notebook_parser.py`), the SQL pattern
analyzer (`src/spira/sql_analyzer.py`), the embedding client
(`src/spira_backend/embeddings.py`) and the query engine
(`src/spira_backend/query_engine.py`), together with theorems settling the
frozen claims about them.

Conventions:
* Python strings are Lean `String`s; most processing happens on `List Char`.
* Python floats (confidence scores, delays) are modelled as `ℚ`.
* Python `set`/`dict` values are modelled as lists in insertion order; set
  insertion is "append if not already a member", which preserves membership
  semantics exactly.
* External effects (sqlparse's token tree, the Bedrock/OpenSearch network
  calls, the LLM) are oracles passed in as explicit parameters.
* Regular expressions from the source are implemented as explicit scanners
  over `List Char`, following Python `re` leftmost-match semantics;
  non-structural recursion uses a fuel argument initialised to the input
  length, which is never exhausted on real inputs.
-/

namespace Spira

/-! ## Character and string utilities (Python `str` / `re` primitives) -/

/-- Python's `\s` class (` `, `\t`, `\n`, `\r`, `\f`, `\v`). -/
def isPySpace (c : Char) : Bool :=
  c == ' ' || c == '\t' || c == '\n' || c == '\r' || c == '\x0b' || c == '\x0c'

/-- Python's `\w` class restricted to ASCII: letters, digits, underscore. -/
def isWordChar (c : Char) : Bool :=
  c.isAlphanum || c == '_'

/-- Case-insensitive character comparison (ASCII, as in `re.IGNORECASE`). -/
def charCI (a b : Char) : Bool :=
  a.toLower == b.toLower

/-- Does `l` start with `pat`, case-sensitively? -/
def startsWithCS : List Char → List Char → Bool
  | [], _ => true
  | _ :: _, [] => false
  | p :: ps, c :: cs => p == c && startsWithCS ps cs

/-- Does `l` start with `pat`, case-insensitively? -/
def startsWithCI : List Char → List Char → Bool
  | [], _ => true
  | _ :: _, [] => false
  | p :: ps, c :: cs => charCI p c && startsWithCI ps cs

/-- Case-sensitive substring test (`pat in s` for Python strings). -/
def containsSub (pat : List Char) : List Char → Bool
  | [] => startsWithCS pat []
  | c :: cs => startsWithCS pat (c :: cs) || containsSub pat cs

/-- Case-insensitive substring test. -/
def containsSubCI (pat : List Char) : List Char → Bool
  | [] => startsWithCI pat []
  | c :: cs => startsWithCI pat (c :: cs) || containsSubCI pat cs

/-- Python's `str.upper()` (ASCII). -/
def pyUpper (s : String) : String :=
  String.mk (s.data.map Char.toUpper)

/-- Python's `str.lower()` (ASCII). -/
def pyLower (s : String) : String :=
  String.mk (s.data.map Char.toLower)

/-- Strip Python whitespace from the front of a character list. -/
def dropPySpace (l : List Char) : List Char :=
  l.dropWhile isPySpace

/-- Python's `str.strip()` on a character list. -/
def pyStripL (l : List Char) : List Char :=
  ((l.dropWhile isPySpace).reverse.dropWhile isPySpace).reverse

/-- Python's `str.strip()`. -/
def pyStrip (s : String) : String :=
  String.mk (pyStripL s.data)

/-- Is a Python string empty or whitespace-only (`not s or not s.strip()`)? -/
def isBlank (s : String) : Bool :=
  s.data.all isPySpace

/-! ## Comment stripping

`notebook_parser._contains_sql` and `sql_analyzer._clean_sql` both remove
`--` line comments (`re.sub(r'--.*$', '', text, flags=re.MULTILINE)`) and
`/*...*/` block comments (`re.sub(r'/\*.*?\*/', '', text, flags=re.DOTALL)`).
-/

/-- Skip to the next newline, keeping the newline itself (`.` does not match
`\n`, so `--.*$` leaves the line terminator in place). -/
def dropToNewline : List Char → List Char
  | [] => []
  | '\n' :: rest => '\n' :: rest
  | _ :: rest => dropToNewline rest

/-- Fuel-driven worker for `--` line-comment removal. -/
def stripLineCommentsF : Nat → List Char → List Char
  | 0, l => l
  | fuel + 1, l =>
    match l with
    | [] => []
    | '-' :: '-' :: rest => stripLineCommentsF fuel (dropToNewline rest)
    | c :: rest => c :: stripLineCommentsF fuel rest

/-- Embeds `re.sub(r'--.*$', '', text, flags=re.MULTILINE)`. -/
def stripLineComments (l : List Char) : List Char :=
  stripLineCommentsF l.length l

/-- Find the first `*/` and return what follows it, if any. -/
def findBlockClose : List Char → Option (List Char)
  | [] => none
  | '*' :: '/' :: rest => some rest
  | _ :: rest => findBlockClose rest

/-- Fuel-driven worker for `/*...*/` block-comment removal.  A `/*` with no
matching `*/` is not a regex match and is left in place (and nothing after
it can match either, since no `*/` remains). -/
def stripBlockCommentsF : Nat → List Char → List Char
  | 0, l => l
  | fuel + 1, l =>
    match l with
    | [] => []
    | '/' :: '*' :: rest =>
      match findBlockClose rest with
      | some rest2 => stripBlockCommentsF fuel rest2
      | none => '/' :: '*' :: rest
    | c :: rest => c :: stripBlockCommentsF fuel rest

/-- Embeds `re.sub(r'/\*.*?\*/', '', text, flags=re.DOTALL)` (non-greedy: each
comment ends at the first `*/`). -/
def stripBlockComments (l : List Char) : List Char :=
  stripBlockCommentsF l.length l

/-! ## Notebook parser: SQL detection (`NotebookParser._contains_sql`) -/

/-- The keyword list of `NotebookParser.sql_patterns` (each compiled as
`^\s*KW\s+` with `re.IGNORECASE | re.MULTILINE`). -/
def sqlKeywords : List String :=
  ["SELECT", "WITH", "INSERT", "UPDATE", "DELETE", "CREATE", "ALTER", "DROP"]

/-- Does the pattern `^\s*KW\s+` match starting at a line-start position?
`\s*` greedily skips whitespace (which may cross newlines), then the keyword
must appear case-insensitively, followed by at least one whitespace
character. -/
def kwMatchHere (kw : List Char) (l : List Char) : Bool :=
  let r := dropPySpace l
  startsWithCI kw r &&
    match r.drop kw.length with
    | c :: _ => isPySpace c
    | [] => false

/-- Search for `^\s*KW\s+` with `re.MULTILINE`: try every line-start
position (offset 0, and every position following a `\n`). -/
def kwSearchF (kw : List Char) : Bool → List Char → Bool
  | _, [] => false
  | atStart, c :: rest =>
    (atStart && kwMatchHere kw (c :: rest)) || kwSearchF kw (c == '\n') rest

/-- Embeds `re.search` for one keyword pattern of `sql_patterns`. -/
def kwSearch (kw : List Char) (l : List Char) : Bool :=
  kwSearchF kw true l

/-- Embeds `re.search` for `%sql\s+` (line magic: `%sql` followed by whitespace). -/
def magicSearch : List Char → Bool
  | [] => false
  | c :: rest =>
    (startsWithCI ['%', 's', 'q', 'l'] (c :: rest) &&
      match (c :: rest).drop 4 with
      | d :: _ => isPySpace d
      | [] => false) || magicSearch rest

/-- Embeds `NotebookParser._contains_sql`: blank text is never SQL; otherwise strip
comments and try the ten `sql_patterns` (eight keywords, `%sql\s+`,
`%%sql`). -/
def containsSql (text : String) : Bool :=
  if isBlank text then false
  else
    let t := stripBlockComments (stripLineComments text.data)
    sqlKeywords.any (fun kw => kwSearch kw.data t) ||
      magicSearch t ||
      containsSubCI ['%', '%', 's', 'q', 'l'] t

/-! ## Notebook parser: data model and cell classification -/

/-- Embeds `NotebookCell` (a `@dataclass`, so Python `==` is field-wise equality,
which the derived `DecidableEq` mirrors).  `metadata` and `outputs` are
modelled as association/string lists. -/
structure NotebookCell where
  cell_type : String
  source : String
  metadata : List (String × String)
  execution_count : Option Int
  outputs : Option (List String)
deriving DecidableEq, Repr

/-- Embeds `ParsedNotebook`. -/
structure ParsedNotebook where
  notebook_path : String
  notebook_type : String
  cells : List NotebookCell
  metadata : List (String × String)
  sql_cells : List NotebookCell
  markdown_cells : List NotebookCell
deriving Repr

/-- The cell-classification loop of `NotebookParser._parse_jupyter_notebook`
(lines 213-228): a cell goes to `sql_cells` iff its type is `'code'` and
`_contains_sql` accepts its source; to `markdown_cells` iff its type is
`'markdown'`. -/
def categorizeStep (acc : List NotebookCell × List NotebookCell)
    (cell : NotebookCell) : List NotebookCell × List NotebookCell :=
  if cell.cell_type == "code" && containsSql cell.source then
    (acc.1 ++ [cell], acc.2)
  else if cell.cell_type == "markdown" then
    (acc.1, acc.2 ++ [cell])
  else acc

def categorizeCells (cells : List NotebookCell) :
    List NotebookCell × List NotebookCell :=
  cells.foldl categorizeStep ([], [])

/-- Embeds `NotebookParser._parse_jupyter_notebook`, given the already-decoded
cells (JSON decoding and `_extract_source` happen upstream). -/
def parseJupyterNotebook (path : String) (meta : List (String × String))
    (cells : List NotebookCell) : ParsedNotebook :=
  { notebook_path := path
    notebook_type := "jupyter"
    cells := cells
    metadata := meta
    sql_cells := (categorizeCells cells).1
    markdown_cells := (categorizeCells cells).2 }

/-! ## Notebook parser: context extraction
(`NotebookParser.extract_sql_with_context`, lines 362-410) -/

/-- One element of the returned `sql_extracts` list (a Python dict). -/
structure SQLExtract where
  notebook_path : String
  notebook_type : String
  sql_query : String
  context_before : String
  context_after : String
  cell_metadata : List (String × String)
  execution_count : Option Int
deriving DecidableEq, Repr

/-- The index-location loop: `sql_cell_index = -1; for j, cell in
enumerate(notebook.cells): if cell == sql_cell: sql_cell_index = j; break`.
Dataclass `==` is structural, so this is the index of the first cell that is
field-wise equal to `c`; `none` models the `-1` sentinel. -/
def findCellIndex (cells : List NotebookCell) (c : NotebookCell) : Option Nat :=
  cells.findIdx? (fun cell => cell = c)

/-- Embeds `for j in range(max(0, i - 3), i): if cells[j].cell_type == 'markdown':
context_before.append(cells[j].source)` (natural subtraction gives
`max(0, i - 3)`). -/
def contextBeforeList (cells : List NotebookCell) (i : Nat) : List String :=
  ((List.range i).filter (fun j => i - 3 ≤ j)).filterMap fun j =>
    match cells.get? j with
    | some cell => if cell.cell_type = "markdown" then some cell.source else none
    | none => none

/-- Embeds `for j in range(i + 1, min(len(cells), i + 4)): ...` collecting markdown
sources after the SQL cell. -/
def contextAfterList (cells : List NotebookCell) (i : Nat) : List String :=
  ((List.range (min cells.length (i + 4))).filter (fun j => i + 1 ≤ j)).filterMap
    fun j =>
      match cells.get? j with
      | some cell => if cell.cell_type = "markdown" then some cell.source else none
      | none => none

/-- Build the extract dict for one SQL cell of one notebook. -/
def buildExtract (nb : ParsedNotebook) (sqlCell : NotebookCell) : SQLExtract :=
  let ctx :=
    match findCellIndex nb.cells sqlCell with
    | some i => (contextBeforeList nb.cells i, contextAfterList nb.cells i)
    | none => ([], [])
  { notebook_path := nb.notebook_path
    notebook_type := nb.notebook_type
    sql_query := sqlCell.source
    context_before := " ".intercalate ctx.1
    context_after := " ".intercalate ctx.2
    cell_metadata := sqlCell.metadata
    execution_count := sqlCell.execution_count }

/-- Embeds `NotebookParser.extract_sql_with_context`: the nested loop over
notebooks and their `sql_cells` (the enumerate index `i` is unused in the
source). -/
def extractSqlWithContext (nbs : List ParsedNotebook) : List SQLExtract :=
  nbs.flatMap fun nb => nb.sql_cells.map (buildExtract nb)

/-! ## Query engine: response parsing (`QueryEngine._parse_claude_response`,
lines 273-318, and `QueryEngine._clean_generated_sql`, lines 320-341) -/

/-- Python's trailing-whitespace strip. -/
def rtrimPy (l : List Char) : List Char :=
  (l.reverse.dropWhile isPySpace).reverse

/-- Split at the first occurrence of `pat` (case-sensitive): returns the
characters before it and the characters after it. -/
def takeUntilStr (pat : List Char) : List Char → Option (List Char × List Char)
  | [] => if startsWithCS pat [] then some ([], []) else none
  | c :: cs =>
    if startsWithCS pat (c :: cs) then some ([], (c :: cs).drop pat.length)
    else
      match takeUntilStr pat cs with
      | some (before, after) => some (c :: before, after)
      | none => none

/-- Leftmost-match driver: try `attempt` at every position left to right
(the semantics of `re.search`). -/
def scanFirst (attempt : List Char → Option α) : List Char → Option α
  | [] => attempt []
  | c :: rest =>
    match attempt (c :: rest) with
    | some a => some a
    | none => scanFirst attempt rest

/-- Attempt for `r'SQL Query:\s*```(?:sql)?\s*(.*?)\s*```'` (IGNORECASE,
DOTALL) at one position.  The greedy leading `\s*` and the lazy capture
bounded by `\s*` + the first closing fence make the group the
whitespace-trimmed text between the fences; the optional `sql` tag is
consumed greedily when present. -/
def attemptLabeledFence (l : List Char) : Option (List Char) :=
  if startsWithCI "SQL Query:".data l then
    let r := dropPySpace (l.drop 10)
    if startsWithCS "```".data r then
      let r1 := r.drop 3
      let r2 := if startsWithCI "sql".data r1 then r1.drop 3 else r1
      match takeUntilStr "```".data (dropPySpace r2) with
      | some (before, _) => some (rtrimPy before)
      | none => none
    else none
  else none

/-- Attempt for `r'```sql\s*(.*?)\s*```'` (IGNORECASE, DOTALL). -/
def attemptSqlFence (l : List Char) : Option (List Char) :=
  if startsWithCI "```sql".data l then
    match takeUntilStr "```".data (dropPySpace (l.drop 6)) with
    | some (before, _) => some (rtrimPy before)
    | none => none
  else none

/-- Attempt for `r'```\s*(SELECT.*?)\s*```'` (IGNORECASE, DOTALL): the
capture starts at the `SELECT` keyword itself. -/
def attemptSelectFence (l : List Char) : Option (List Char) :=
  if startsWithCS "```".data l then
    let r := dropPySpace (l.drop 3)
    if startsWithCI "SELECT".data r then
      match takeUntilStr "```".data r with
      | some (before, _) => some (rtrimPy before)
      | none => none
    else none
  else none

/-- Characters allowed by the `[0-9.]+` confidence group. -/
def isDigitDot (c : Char) : Bool :=
  c.isDigit || c == '.'

/-- Attempt for `r'Confidence:\s*([0-9.]+)'` (IGNORECASE). -/
def attemptConfidence (l : List Char) : Option (List Char) :=
  if startsWithCI "Confidence:".data l then
    let run := (dropPySpace (l.drop 11)).takeWhile isDigitDot
    if run.isEmpty then none else some run
  else none

/-- Attempt for `r'Explanation:\s*(.*?)(?=\n\n|\Z)'` (IGNORECASE, DOTALL):
greedy `\s*`, then the lazy capture runs to the first blank line or the end
of the string. -/
def attemptExplanation (l : List Char) : Option (List Char) :=
  if startsWithCI "Explanation:".data l then
    let r := dropPySpace (l.drop 12)
    match takeUntilStr "\n\n".data r with
    | some (before, _) => some before
    | none => some r
  else none

/-- Decimal-digit run to a natural number. -/
def digitsToNat (ds : List Char) : Nat :=
  ds.foldl (fun acc c => 10 * acc + (c.toNat - 48)) 0

/-- The rational value of a decimal `ip.fp` with `flen` fractional
digits. -/
def pyFloatVal (ip fp flen : Nat) : ℚ :=
  (ip : ℚ) + (fp : ℚ) / ((10 : ℚ) ^ flen)

/-- Python `float()` restricted to strings over `[0-9.]`: at most one dot
and at least one digit; anything else raises `ValueError`. -/
def parsePyFloat (run : List Char) : Option ℚ :=
  match run.splitOn '.' with
  | [ds] => if ds.isEmpty then none else some (digitsToNat ds)
  | [intPart, fracPart] =>
    if intPart.isEmpty && fracPart.isEmpty then none
    else some (pyFloatVal (digitsToNat intPart) (digitsToNat fracPart)
      fracPart.length)
  | _ => none

/-- Delete every (non-overlapping, left-to-right) occurrence of `pat`
(Python `str.replace(pat, '')`), fuel-driven. -/
def removeAllF (pat : List Char) : Nat → List Char → List Char
  | 0, l => l
  | _ + 1, [] => []
  | fuel + 1, c :: rest =>
    if startsWithCS pat (c :: rest) then
      removeAllF pat fuel ((c :: rest).drop pat.length)
    else c :: removeAllF pat fuel rest

/-- Embeds `str.replace(pat, '')`. -/
def removeAll (pat : List Char) (l : List Char) : List Char :=
  removeAllF pat l.length l

/-- Fuel-driven worker for Python's `str.split()` (split on whitespace
runs, dropping empties). -/
def splitPyWsF : Nat → List Char → List (List Char)
  | 0, _ => []
  | fuel + 1, l =>
    let l1 := dropPySpace l
    if l1.isEmpty then []
    else l1.takeWhile (fun c => !isPySpace c) ::
      splitPyWsF fuel (l1.dropWhile (fun c => !isPySpace c))

/-- Python's `str.split()`. -/
def splitPyWs (l : List Char) : List (List Char) :=
  splitPyWsF (l.length + 1) l

/-- Python's `str.rstrip(';')`: remove every trailing semicolon. -/
def rstripSemis (l : List Char) : List Char :=
  (l.reverse.dropWhile (fun c => c == ';')).reverse

/-- Embeds `QueryEngine._clean_generated_sql`: empty in, empty out; otherwise
delete fence markers, collapse whitespace via `' '.join(sql.split())`, and
force exactly one trailing semicolon. -/
def cleanGeneratedSql (sql : String) : String :=
  if sql = "" then ""
  else
    let l1 := removeAll "```sql".data sql.data
    let l2 := removeAll "```".data l1
    let joined := List.intercalate [' '] (splitPyWs l2)
    String.mk (rstripSemis joined ++ [';'])

/-- Embeds `QueryEngine._parse_claude_response`: the three-pattern SQL cascade,
the confidence number (default `0.8`), the explanation paragraph (default:
the whole response), then SQL cleanup.  A `ValueError` from `float()` on a
degenerate `[0-9.]+` group is caught by the method's `except`, which
returns `("", 0.0, response)`. -/
def parseClaudeResponse (response : String) : String × ℚ × String :=
  let resp := response.data
  let sqlMatch :=
    (scanFirst attemptLabeledFence resp).orElse fun _ =>
      (scanFirst attemptSqlFence resp).orElse fun _ =>
        scanFirst attemptSelectFence resp
  let sqlRaw :=
    match sqlMatch with
    | some m => String.mk (pyStripL m)
    | none => ""
  let explanation :=
    match scanFirst attemptExplanation resp with
    | some cap => String.mk (pyStripL cap)
    | none => response
  match scanFirst attemptConfidence resp with
  | some run =>
    match parsePyFloat run with
    | some conf => (cleanGeneratedSql sqlRaw, conf, explanation)
    | none => ("", 0, response)
  | none => (cleanGeneratedSql sqlRaw, 0.8, explanation)

/-! ## Query engine: the request pipeline (`QueryEngine.generate_sql`,
lines 46-126)

External effects are collected in a `QueryEnv` oracle:
`queryEmbedding` is the result of
`embedding_pipeline.generate_query_embedding` (which returns
`Optional[List[float]]` and never raises), `hybridResult` / `vectorResult`
are the OpenSearch calls (`.error` models an exception escaping the call,
caught by the method's outer `except`), `schemaFetch` / `businessFetch`
model `get_document` (outer `Option` = document missing, inner `Option` =
`content` key missing, `.error` = an exception caught inside the helper),
and `claudeCall` models the Bedrock invocation plus body decoding inside
`_generate_sql_with_claude` (`.error e` = an exception with message `e`).
The prompt built by `_prepare_rag_context` is consumed only by the LLM
call, whose response the oracle supplies, so it is not reconstructed here.
`elapsed` models `time.time() - start_time` at return. -/

/-- The `source` dict of one retrieved document. -/
structure SourceDoc where
  sql_query : String
  notebook_path : String
  context_before : String
  context_after : String
  tables_used : List String
  query_type : String
deriving DecidableEq, Repr

/-- One OpenSearch hit. -/
structure SimilarDoc where
  score : ℚ
  source : SourceDoc
deriving DecidableEq, Repr

/-- One citation entry built by `_format_similar_queries`. -/
structure FormattedQuery where
  sql_query : String
  similarity_score : ℚ
  notebook_path : String
  context_before : String
  context_after : String
  tables_used : List String
  query_type : String
deriving DecidableEq, Repr

/-- Embeds `SQLResult`. -/
structure SQLResult where
  sql_query : String
  confidence : ℚ
  explanation : String
  similar_queries : List FormattedQuery
  schema_context : String
  execution_time : ℚ
deriving DecidableEq, Repr

/-- The oracle for one `generate_sql` run. -/
structure QueryEnv where
  queryEmbedding : Option (List ℚ)
  hybridResult : Except String (List SimilarDoc)
  vectorResult : Except String (List SimilarDoc)
  schemaFetch : Except Unit (Option (Option String))
  businessFetch : Except Unit (Option (Option String))
  claudeCall : Except String String
  elapsed : ℚ

/-- Python truthiness of the embedding (`if not query_embedding`): `None`
and the empty list are both falsy. -/
def truthyEmb : Option (List ℚ) → Bool
  | none => false
  | some [] => false
  | some (_ :: _) => true

/-- Embeds `QueryEngine._get_schema_context`: exceptions and missing documents or
fields all degrade to the empty string. -/
def getSchemaContext (f : Except Unit (Option (Option String))) : String :=
  match f with
  | .error _ => ""
  | .ok none => ""
  | .ok (some none) => ""
  | .ok (some (some content)) => content

/-- Embeds `QueryEngine._format_similar_queries`. -/
def formatSimilarQueries (docs : List SimilarDoc) : List FormattedQuery :=
  docs.map fun doc =>
    { sql_query := doc.source.sql_query
      similarity_score := doc.score
      notebook_path := doc.source.notebook_path
      context_before := doc.source.context_before
      context_after := doc.source.context_after
      tables_used := doc.source.tables_used
      query_type := doc.source.query_type }

/-- Embeds `QueryEngine._generate_sql_with_claude`: an exception in the Bedrock
call yields `("", 0.0, "Error generating SQL: ...")`; otherwise the
response text is parsed. -/
def generateSqlWithClaude (env : QueryEnv) : String × ℚ × String :=
  match env.claudeCall with
  | .error e => ("", 0, "Error generating SQL: " ++ e)
  | .ok resp => parseClaudeResponse resp

/-- Embeds `QueryEngine._create_error_result`. -/
def createErrorResult (msg : String) (elapsed : ℚ) : SQLResult :=
  { sql_query := ""
    confidence := 0
    explanation := msg
    similar_queries := []
    schema_context := ""
    execution_time := elapsed }

/-- Embeds `QueryEngine.generate_sql`: embed, retrieve, fetch digests, generate,
parse, cite — with every failure mode short-circuiting to
`_create_error_result`. -/
def generateSql (env : QueryEnv) (user_question : String)
    (max_similar : Nat := 5) (hybrid_search : Bool := true) : SQLResult :=
  if !truthyEmb env.queryEmbedding then
    createErrorResult "Failed to generate query embedding" env.elapsed
  else
    match (if hybrid_search then env.hybridResult else env.vectorResult) with
    | .error e => createErrorResult ("Error: " ++ e) env.elapsed
    | .ok similarDocs =>
      if similarDocs.isEmpty then
        createErrorResult "No similar queries found" env.elapsed
      else
        let schemaContext := getSchemaContext env.schemaFetch
        let result := generateSqlWithClaude env
        if result.1 = "" then
          createErrorResult "Failed to generate SQL" env.elapsed
        else
          { sql_query := result.1
            confidence := result.2.1
            explanation := result.2.2
            similar_queries := formatSimilarQueries similarDocs
            schema_context := schemaContext
            execution_time := env.elapsed }

/-- The disjunction of `generate_sql`'s failure modes, mirroring its branch
structure: embedding falsy, retrieval raised, zero hits, or
generation/parsing produced no SQL. -/
def generateFailed (env : QueryEnv) (hybrid_search : Bool) : Bool :=
  !truthyEmb env.queryEmbedding ||
    (match (if hybrid_search then env.hybridResult else env.vectorResult) with
     | .error _ => true
     | .ok docs => docs.isEmpty || (generateSqlWithClaude env).1 == "")

/-! ## Query engine: `QueryEngine.validate_sql` (lines 391-419) -/

/-- The fixed `dangerous_keywords` list, in source order. -/
def dangerousKeywords : List String :=
  ["DROP", "DELETE", "TRUNCATE", "ALTER", "INSERT", "UPDATE"]

/-- The keyword loop: first dangerous keyword occurring as a substring of
the uppercased query, if any. -/
def firstDangerous (sqlUpper : String) : Option String :=
  dangerousKeywords.find? fun kw => containsSub kw.data sqlUpper.data

/-- Embeds `QueryEngine.validate_sql`.  `sqlparse.parse` returns an empty statement
tuple only for the empty string (any non-empty input yields at least one
statement), which the first branch models; then each dangerous keyword is
tested by raw substring containment on the uppercased text. -/
def validateSql (sql_query : String) : Bool × String :=
  if sql_query = "" then (false, "Invalid SQL syntax")
  else
    match firstDangerous (pyUpper sql_query) with
    | some kw => (false, "Query contains potentially dangerous operation: " ++ kw)
    | none => (true, "Valid SQL query")

/-! ## Embedding client (`BedrockEmbeddingClient.generate_embedding`,
`src/spira_backend/embeddings.py` lines 63-152)

One Bedrock attempt is abstracted as an `AttemptOutcome`:
`.ok emb` means the API call and JSON decoding succeeded and the
titan/cohere branch extracted `emb` (`none` models a missing/empty
embedding field, which is falsy); `.clientError code` models a botocore
`ClientError` carrying `e.response['Error']['Code'] == code`; `.exn`
models any other exception.  The trace records the returned value, how
many loop iterations ran, and the backoff sleeps performed (the
`_rate_limit` inter-call pacing is a fixed pre-call wait and is not part
of the retry policy under test).  Input truncation to 8000 characters
only affects the request body, which the outcome oracle absorbs. -/

/-- Outcome of one `invoke_model` attempt. -/
inductive AttemptOutcome where
  | ok (emb : Option (List ℚ))
  | clientError (code : String)
  | exn
deriving DecidableEq, Repr

/-- Oracle for one `generate_embedding` call. -/
structure EmbedEnv where
  modelSupported : Bool
  outcomes : Nat → AttemptOutcome

/-- Observable trace of a `generate_embedding` call. -/
structure EmbedTrace where
  result : Option (List ℚ)
  attempts : Nat
  sleeps : List ℚ
deriving DecidableEq, Repr

/-- Embeds `self.max_retries = 3` (from `__init__`). -/
def maxRetries : Nat := 3

/-- Embeds `_exponential_backoff`: `min(base_delay * 2 ** attempt, max_delay)`
with `base_delay = 1.0`, `max_delay = 30.0`. -/
def exponentialBackoff (attempt : Nat) : ℚ :=
  min ((1 : ℚ) * 2 ^ attempt) 30

/-- The `for attempt in range(self.max_retries)` loop.  `remaining` is the
number of iterations left (`max_retries - attempt`); exhausting it reaches
the final `return None` on line 152.  A throttling `ClientError` retries
with backoff unless this is the last attempt; any other `ClientError`
returns `None` immediately; any other exception retries with the same
backoff unless this is the last attempt; a falsy extracted embedding
(`None` or `[]`) returns `None`; the unsupported-model guard returns
`None` from inside the attempt. -/
def runAttempts (env : EmbedEnv) :
    Nat → Nat → List ℚ → EmbedTrace
  | 0, attempt, sleeps => ⟨none, attempt, sleeps⟩
  | remaining + 1, attempt, sleeps =>
    if !env.modelSupported then ⟨none, attempt + 1, sleeps⟩
    else
      match env.outcomes attempt with
      | .ok (some e) =>
        if e.isEmpty then ⟨none, attempt + 1, sleeps⟩
        else ⟨some e, attempt + 1, sleeps⟩
      | .ok none => ⟨none, attempt + 1, sleeps⟩
      | .clientError code =>
        if code = "ThrottlingException" then
          if attempt < maxRetries - 1 then
            runAttempts env remaining (attempt + 1)
              (sleeps ++ [exponentialBackoff attempt])
          else ⟨none, attempt + 1, sleeps⟩
        else ⟨none, attempt + 1, sleeps⟩
      | .exn =>
        if attempt < maxRetries - 1 then
          runAttempts env remaining (attempt + 1)
            (sleeps ++ [exponentialBackoff attempt])
        else ⟨none, attempt + 1, sleeps⟩

/-- Embeds `BedrockEmbeddingClient.generate_embedding`: empty/blank input returns
`None` before the loop; otherwise the retry loop runs. -/
def generateEmbedding (env : EmbedEnv) (text : String) : EmbedTrace :=
  if isBlank text then ⟨none, 0, []⟩
  else runAttempts env maxRetries 0 []

/-! ## SQL analyzer: query cleaning (`SQLAnalyzer._clean_sql`, lines
109-129) -/

/-- Fuel-driven worker for `re.sub(r'^%sql\s*', '', sql,
flags=re.IGNORECASE | re.MULTILINE)` (and the `%%sql` variant).  The flag
records whether the current scan position is a line start (offset 0 or
just after a `\n`); a match consumes the marker and the following greedy
`\s*` run (which may cross newlines), after which the position is a line
start again exactly when the last consumed character was a newline. -/
def stripMagicF (kw : List Char) : Nat → Bool → List Char → List Char
  | 0, _, l => l
  | _ + 1, _, [] => []
  | fuel + 1, atStart, c :: rest =>
    if atStart && startsWithCI kw (c :: rest) then
      let r1 := (c :: rest).drop kw.length
      let ws := r1.takeWhile isPySpace
      let nextStart := match ws.getLast? with
        | some nl => nl == '\n'
        | none => false
      stripMagicF kw fuel nextStart (r1.dropWhile isPySpace)
    else c :: stripMagicF kw fuel (c == '\n') rest

/-- One notebook-magic-removal pass. -/
def stripMagic (kw : String) (l : List Char) : List Char :=
  stripMagicF kw.data l.length true l

/-- Fuel-driven worker for `re.sub(r'\s+', ' ', sql)`. -/
def collapseWsF : Nat → List Char → List Char
  | 0, l => l
  | _ + 1, [] => []
  | fuel + 1, c :: rest =>
    if isPySpace c then ' ' :: collapseWsF fuel (rest.dropWhile isPySpace)
    else c :: collapseWsF fuel rest

/-- Embeds `SQLAnalyzer._clean_sql`: remove `%sql` then `%%sql` line magics,
strip both comment forms, collapse whitespace and strip. -/
def cleanSql (sql : String) : String :=
  let l1 := stripMagic "%sql" sql.data
  let l2 := stripMagic "%%sql" l1
  let l3 := stripLineComments l2
  let l4 := stripBlockComments l3
  String.mk (pyStripL (collapseWsF l4.length l4))

/-! ## SQL analyzer: the sqlparse token oracle and `SQLPattern`

`sqlparse.parse` is an external library; its output is abstracted as a
`ParsedStatement` oracle.  `text` is `str(parsed)`; `topTokens` carries the
top-level `parsed.tokens` (only the exact-`ttype is Keyword`/`Name` tests
from the source are observed, so other ttypes collapse to `.other`);
`flatTokens` is `parsed.flatten()`; `whereGroups` lists `str(token)` for
the top-level `Where` group tokens.  `parseOracle s = none` models
`sqlparse.parse(s)` returning an empty statement tuple, so that
`sqlparse.parse(s)[0]` raises `IndexError` — which happens exactly for the
empty string. -/

/-- The two sqlparse token types the analyzer tests with `is`. -/
inductive TType where
  | keyword
  | name
  | other
deriving DecidableEq, Repr

/-- One sqlparse token (type and `token.value`). -/
structure SqlToken where
  ttype : TType
  value : String
deriving DecidableEq, Repr

/-- Abstraction of one parsed sqlparse statement. -/
structure ParsedStatement where
  text : String
  topTokens : List SqlToken
  flatTokens : List SqlToken
  whereGroups : List String
deriving Repr

/-- Embeds `SQLPattern` (sets are modelled as lists in insertion order, with
set-semantics insertion). -/
structure SQLPattern where
  tables : List String
  columns : List String
  joins : List (String × String × String)
  filters : List String
  aggregations : List String
  functions : List String
  subqueries : List String
  cte_names : List String
  query_type : String
deriving DecidableEq, Repr

/-- The pattern returned by the `except` fallback of `analyze_query`. -/
def emptyPattern : SQLPattern :=
  { tables := [], columns := [], joins := [], filters := [],
    aggregations := [], functions := [], subqueries := [], cte_names := [],
    query_type := "UNKNOWN" }

/-- Python `set.add` on the list model: append if not already present. -/
def addSet (l : List String) (x : String) : List String :=
  if x ∈ l then l else l ++ [x]

/-! ## SQL analyzer: per-query extraction -/

/-- The query-type vocabulary of `_get_query_type`. -/
def queryTypeKeywords : List String :=
  ["SELECT", "INSERT", "UPDATE", "DELETE", "CREATE", "ALTER", "DROP", "WITH"]

/-- Embeds `SQLAnalyzer._get_query_type`: first top-level token with exact
`Keyword` ttype whose uppercased value is in the vocabulary. -/
def getQueryType (topTokens : List SqlToken) : String :=
  match topTokens.find? (fun t =>
      (match t.ttype with | .keyword => true | _ => false) &&
        queryTypeKeywords.contains (pyUpper t.value)) with
  | some t => pyUpper t.value
  | none => "UNKNOWN"

/-- The analyzer's `self.table_alias_map`. -/
abbrev AliasMap := List (String × String)

/-- Embeds `self.table_alias_map.get(key, key)`. -/
def aliasLookup (m : AliasMap) (k : String) : String :=
  match m.find? (fun p => p.1 == k) with
  | some p => p.2
  | none => k

/-- The keyword skip list inside `_process_name_token`. -/
def nameSkipList : List String :=
  ["FROM", "WHERE", "SELECT", "AS", "ON", "AND", "OR"]

/-- Python `str.split(sep)` on a character list (`"".split(sep) == ['']`,
empty pieces preserved). -/
def pySplitChar (sep : Char) : List Char → List (List Char)
  | [] => [[]]
  | c :: rest =>
    if c == sep then [] :: pySplitChar sep rest
    else
      match pySplitChar sep rest with
      | h :: t => (c :: h) :: t
      | [] => [[c]]

/-- Embeds `self.table_suffixes` of `_looks_like_table_name`. -/
def tableSuffixes : List String :=
  ["_table", "_tbl", "_fact", "_dim", "_stage", "_raw"]

/-- Python `str.endswith`. -/
def endsWith (pat l : List Char) : Bool :=
  startsWithCS pat.reverse l.reverse

/-- Embeds `SQLAnalyzer._looks_like_table_name`. -/
def looksLikeTableName (name : String) : Bool :=
  tableSuffixes.any fun suf => endsWith suf.data (pyLower name).data

/-- Embeds `SQLAnalyzer._process_name_token`: skip join/filter keywords; a dotted
`a.b` value adds column `b` and table `alias_map.get(a, a)`; a bare name is
a table by the suffix heuristic, else a column.  The alias map is read but
never written. -/
def processNameToken (m : AliasMap) (p : SQLPattern) (value : String) :
    AliasMap × SQLPattern :=
  if nameSkipList.contains (pyUpper value) then (m, p)
  else if value.data.contains '.' then
    match pySplitChar '.' value.data with
    | [t, c] =>
      let p1 := { p with columns := addSet p.columns (String.mk c) }
      (m, { p1 with tables := addSet p1.tables (aliasLookup m (String.mk t)) })
    | _ => (m, p)
  else if looksLikeTableName value then
    (m, { p with tables := addSet p.tables value })
  else (m, { p with columns := addSet p.columns value })

/-- One iteration of the `for token in parsed.flatten()` loop: only
tokens whose ttype is exactly `Name` are processed. -/
def nameTokenStep (acc : AliasMap × SQLPattern) (t : SqlToken) :
    AliasMap × SQLPattern :=
  match t.ttype with
  | .name => processNameToken acc.1 acc.2 t.value
  | _ => acc

/-- Embeds `SQLAnalyzer._extract_tables_and_columns`: reset the alias map to
empty (discarding the analyzer's previous state `m0`), then process every
flattened token whose ttype is exactly `Name`. -/
def extractTablesAndColumns (m0 : AliasMap) (flatTokens : List SqlToken)
    (p : SQLPattern) : AliasMap × SQLPattern :=
  let _ := m0
  flatTokens.foldl nameTokenStep ([], p)

/-! ## SQL analyzer: regex scanners over the statement text -/

/-- Fuel-driven `re.finditer` driver: try `step` at each position, left to
right; a match resumes scanning right after its end (non-overlapping).
Every `step` used here consumes at least one character, so fuel equal to
the input length is never exhausted. -/
def scanAllF (step : List Char → Option (α × List Char)) :
    Nat → List Char → List α
  | 0, _ => []
  | _ + 1, [] => []
  | fuel + 1, c :: rest =>
    match step (c :: rest) with
    | some (a, out) => a :: scanAllF step fuel out
    | none => scanAllF step fuel rest

/-- Embeds `re.finditer` over a character list. -/
def scanAll (step : List Char → Option (α × List Char)) (l : List Char) :
    List α :=
  scanAllF step l.length l

/-- Embeds `JOIN\s+(\w+)`: the shared tail of all four join patterns. -/
def joinFinish (l : List Char) : Option (List Char × List Char) :=
  if startsWithCS "JOIN".data l then
    let r := l.drop 4
    if (r.takeWhile isPySpace).isEmpty then none
    else
      let r2 := r.dropWhile isPySpace
      let w2 := r2.takeWhile isWordChar
      if w2.isEmpty then none else some (w2, r2.dropWhile isWordChar)
  else none

/-- Embeds `(?:OPT\s+)?JOIN\s+(\w+)`: greedily try the optional middle keyword,
falling back to the bare `JOIN` tail (regex backtracking). -/
def joinOptThen (opt : List Char) (l : List Char) :
    Option (List Char × List Char) :=
  (if startsWithCS opt l then
    let r := l.drop opt.length
    if (r.takeWhile isPySpace).isEmpty then none
    else joinFinish (r.dropWhile isPySpace)
  else none).orElse fun _ => joinFinish l

/-- One attempt of a join pattern
`(\w+)\s+[REQ\s+](?:OPT\s+)?JOIN\s+(\w+)` at a fixed position: returns
`((group0, group1, group2), rest)`.  The patterns are compiled without
flags and run on the uppercased statement text, so matching is
case-sensitive. -/
def joinAttempt (reqMid : Option (List Char)) (opt : List Char)
    (l : List Char) : Option ((List Char × List Char × List Char) × List Char) :=
  let w1 := l.takeWhile isWordChar
  if w1.isEmpty then none
  else
    let r1 := l.dropWhile isWordChar
    if (r1.takeWhile isPySpace).isEmpty then none
    else
      let r2 := r1.dropWhile isPySpace
      let tail :=
        match reqMid with
        | some kw =>
          if startsWithCS kw r2 then
            let r3 := r2.drop kw.length
            if (r3.takeWhile isPySpace).isEmpty then none
            else joinOptThen opt (r3.dropWhile isPySpace)
          else none
        | none => joinOptThen opt r2
      match tail with
      | some (w2, rest) => some ((l.take (l.length - rest.length), w1, w2), rest)
      | none => none

/-- Embeds `SQLAnalyzer._extract_joins`: run the four `finditer` patterns over
the uppercased statement text, in source order, and classify each match by
substring containment of `LEFT`/`RIGHT`/`FULL` in `match.group(0)`,
defaulting to `INNER`. -/
def extractJoins (st : ParsedStatement) (p : SQLPattern) : SQLPattern :=
  let up := (pyUpper st.text).data
  let run := fun (req : Option String) (opt : String) =>
    scanAll (joinAttempt (req.map String.data) opt.data) up
  let allMatches :=
    run none "INNER" ++ run (some "LEFT") "OUTER" ++
      run (some "RIGHT") "OUTER" ++ run (some "FULL") "OUTER"
  allMatches.foldl
    (fun pp m =>
      let jt :=
        if containsSub "LEFT".data m.1 then "LEFT"
        else if containsSub "RIGHT".data m.1 then "RIGHT"
        else if containsSub "FULL".data m.1 then "FULL"
        else "INNER"
      { pp with joins := pp.joins ++ [(String.mk m.2.1, String.mk m.2.2, jt)] })
    p

/-- Fuel-driven worker for `re.split(r'\s+(?:AND|OR)\s+', s,
flags=re.IGNORECASE)`: a separator is a whitespace run, `AND` or `OR`
(case-insensitive), and another whitespace run. -/
def splitAndOrF : Nat → List Char → List Char → List (List Char)
  | 0, acc, l => [acc.reverse ++ l]
  | _ + 1, acc, [] => [acc.reverse]
  | fuel + 1, acc, c :: rest =>
    if isPySpace c then
      let r1 := (c :: rest).dropWhile isPySpace
      let kwLen :=
        if startsWithCI "AND".data r1 then some 3
        else if startsWithCI "OR".data r1 then some 2
        else none
      match kwLen with
      | some k =>
        let r2 := r1.drop k
        if (r2.takeWhile isPySpace).isEmpty then
          splitAndOrF fuel (c :: acc) rest
        else acc.reverse :: splitAndOrF fuel [] (r2.dropWhile isPySpace)
      | none => splitAndOrF fuel (c :: acc) rest
    else splitAndOrF fuel (c :: acc) rest

/-- Embeds `re.split(r'\s+(?:AND|OR)\s+', s, flags=re.IGNORECASE)`. -/
def splitAndOr (l : List Char) : List (List Char) :=
  splitAndOrF (l.length + 1) [] l

/-- Embeds `SQLAnalyzer._extract_filters`: for each top-level `Where` group,
delete every literal `WHERE`, strip, split on `AND`/`OR`, and keep the
stripped non-empty conditions. -/
def extractFilters (st : ParsedStatement) (p : SQLPattern) : SQLPattern :=
  st.whereGroups.foldl
    (fun pp wg =>
      let whereStr := pyStripL (removeAll "WHERE".data wg.data)
      let conds := (splitAndOr whereStr).map (fun c => String.mk (pyStripL c))
      { pp with filters := pp.filters ++ conds.filter (fun c => c ≠ "") })
    p

/-- Embeds `self.aggregation_functions` (a Python set literal; list order is the
source literal order — only membership is observable downstream). -/
def aggregationFunctions : List String :=
  ["count", "sum", "avg", "min", "max", "median", "stddev",
   "first_value", "last_value", "row_number", "rank", "dense_rank"]

/-- Embeds `self.date_functions`. -/
def dateFunctions : List String :=
  ["date_trunc", "date_part", "extract", "dateadd", "datediff",
   "current_date", "current_timestamp", "now", "getdate"]

/-- One attempt of the generic function-call regex `(\w+)\s*\(`. -/
def callStep (l : List Char) : Option (List Char × List Char) :=
  let w := l.takeWhile isWordChar
  if w.isEmpty then none
  else
    match (l.dropWhile isWordChar).dropWhile isPySpace with
    | '(' :: rest => some (w, rest)
    | _ => none

/-- Embeds `re.findall(r'(\w+)\s*\(', s)`. -/
def findCalls (l : List Char) : List (List Char) :=
  scanAll callStep l

/-- Embeds `SQLAnalyzer._extract_functions_and_aggregations`: vocabulary names
detected by `NAME(` substring containment in the uppercased text go to
`aggregations` (uppercased) and `functions` (uppercased); every generic
`(\w+)\s*\(` match from the uppercased text is added to `functions`. -/
def extractFunctionsAndAggregations (st : ParsedStatement) (p : SQLPattern) :
    SQLPattern :=
  let sqlUpper := (pyUpper st.text).data
  let p1 := aggregationFunctions.foldl
    (fun pp f =>
      if containsSub (pyUpper f ++ "(").data sqlUpper then
        { pp with aggregations := addSet pp.aggregations (pyUpper f) }
      else pp)
    p
  let p2 := dateFunctions.foldl
    (fun pp f =>
      if containsSub (pyUpper f ++ "(").data sqlUpper then
        { pp with functions := addSet pp.functions (pyUpper f) }
      else pp)
    p1
  { p2 with
    functions := (findCalls sqlUpper).foldl
      (fun acc w => addSet acc (String.mk w)) p2.functions }

/-- One attempt of the subquery regex `\(\s*SELECT\s+.*?\)` (IGNORECASE,
DOTALL): open paren, optional whitespace, the keyword, at least one
whitespace character, then everything up to the first closing paren. -/
def subqueryStep (l : List Char) : Option (List Char × List Char) :=
  match l with
  | '(' :: r =>
    let sp := r.takeWhile isPySpace
    let r1 := r.dropWhile isPySpace
    if startsWithCI "SELECT".data r1 then
      let r2 := r1.drop 6
      match r2 with
      | c :: _ =>
        if isPySpace c then
          match takeUntilStr ")".data r2 with
          | some (body, rest) =>
            some ('(' :: (sp ++ r1.take 6 ++ body ++ [')']), rest)
          | none => none
        else none
      | [] => none
    else none
  | _ => none

/-- Embeds `SQLAnalyzer._extract_subqueries` over `str(parsed)`. -/
def extractSubqueries (st : ParsedStatement) (p : SQLPattern) : SQLPattern :=
  { p with
    subqueries := p.subqueries ++ (scanAll subqueryStep st.text.data).map String.mk }

/-- One attempt of the CTE regex `WITH\s+(\w+)\s+AS\s*\(` (IGNORECASE). -/
def cteStep (l : List Char) : Option (List Char × List Char) :=
  if startsWithCI "WITH".data l then
    let r := l.drop 4
    if (r.takeWhile isPySpace).isEmpty then none
    else
      let r1 := r.dropWhile isPySpace
      let w := r1.takeWhile isWordChar
      if w.isEmpty then none
      else
        let r2 := r1.dropWhile isWordChar
        if (r2.takeWhile isPySpace).isEmpty then none
        else
          let r3 := r2.dropWhile isPySpace
          if startsWithCI "AS".data r3 then
            match (r3.drop 2).dropWhile isPySpace with
            | '(' :: rest => some (w, rest)
            | _ => none
          else none
  else none

/-- Embeds `SQLAnalyzer._extract_ctes` over `str(parsed)`. -/
def extractCtes (st : ParsedStatement) (p : SQLPattern) : SQLPattern :=
  { p with
    cte_names := (scanAll cteStep st.text.data).foldl
      (fun acc w => addSet acc (String.mk w)) p.cte_names }

/-- Embeds `SQLAnalyzer.analyze_query`: clean, parse (an empty parse result means
`parsed[0]` raises and the `except` returns the all-empty UNKNOWN
pattern), then run the six extractors.  The analyzer's mutable
`table_alias_map` is threaded explicitly as `m0`; the `context` argument
is unused in the source as well. -/
def analyzeQuery (parseOracle : String → Option ParsedStatement)
    (m0 : AliasMap) (sql_query : String) (context : String := "") :
    AliasMap × SQLPattern :=
  let _ := context
  match parseOracle (cleanSql sql_query) with
  | none => (m0, emptyPattern)
  | some st =>
    let p0 := { emptyPattern with query_type := getQueryType st.topTokens }
    let mp := extractTablesAndColumns m0 st.flatTokens p0
    let p2 := extractJoins st mp.2
    let p3 := extractFilters st p2
    let p4 := extractFunctionsAndAggregations st p3
    let p5 := extractSubqueries st p4
    let p6 := extractCtes st p5
    (mp.1, p6)

/-! ## SQL analyzer: cross-query mining
(`SQLAnalyzer.analyze_business_patterns`, lines 308-382) -/

/-- Embeds `BusinessPattern` (dicts/sets as insertion-ordered lists). -/
structure BusinessPattern where
  table_relationships : List (String × List String)
  common_filters : List (String × List String)
  business_calculations : List String
  date_patterns : List String
  aggregation_patterns : List (String × List String)
deriving DecidableEq, Repr

/-- Embeds `self.business_keywords`. -/
def businessKeywords : List String :=
  ["revenue", "profit", "loss", "margin", "conversion", "retention",
   "churn", "ltv", "cac", "arpu", "mrr", "arr", "cohort"]

/-- The date-word list at line 369. -/
def dateWords : List String :=
  ["date", "time", "day", "month", "year"]

/-- Embeds `dict[k].add(v)` with `if k not in dict: dict[k] = set()`. -/
def addToSetMap (m : List (String × List String)) (k v : String) :
    List (String × List String) :=
  if (m.find? (fun p => p.1 == k)).isSome then
    m.map fun p => if p.1 == k then (p.1, addSet p.2 v) else p
  else m ++ [(k, [v])]

/-- Embeds `if k not in dict: dict[k] = {}` on a nested counts dict. -/
def ensureKey (m : List (String × List (String × Nat))) (k : String) :
    List (String × List (String × Nat)) :=
  if (m.find? (fun p => p.1 == k)).isSome then m else m ++ [(k, [])]

/-- Embeds `d[key] = d.get(key, 0) + 1` (a new key is appended, preserving Python
dict insertion order). -/
def bumpCount (inner : List (String × Nat)) (key : String) :
    List (String × Nat) :=
  if (inner.find? (fun p => p.1 == key)).isSome then
    inner.map fun p => if p.1 == key then (p.1, p.2 + 1) else p
  else inner ++ [(key, 1)]

/-- Bump `m[k][sub]` (the outer key is already ensured). -/
def bumpNested (m : List (String × List (String × Nat))) (k sub : String) :
    List (String × List (String × Nat)) :=
  m.map fun p => if p.1 == k then (p.1, bumpCount p.2 sub) else p

/-- The loop state of `analyze_business_patterns`: the growing
`BusinessPattern` fields plus the three local count dicts
(`table_join_counts` is computed but never read afterwards, as in the
source) and the analyzer's alias-map state. -/
structure BPAcc where
  relationships : List (String × List String)
  joinCounts : List (String × Nat)
  filterCounts : List (String × List (String × Nat))
  aggCounts : List (String × List (String × Nat))
  calcs : List String
  datePatterns : List String
  m : AliasMap

/-- One iteration of the `for extract in sql_extracts` loop. -/
def bpStep (parseOracle : String → Option ParsedStatement) (acc : BPAcc)
    (extract : SQLExtract) : BPAcc :=
  let msp := analyzeQuery parseOracle acc.m extract.sql_query
    extract.context_before
  let sp := msp.2
  let rel := sp.joins.foldl (fun r j => addToSetMap r j.1 j.2.1)
    acc.relationships
  let jc := sp.joins.foldl (fun r j => bumpCount r (j.1 ++ "-" ++ j.2.1))
    acc.joinCounts
  let fc := sp.tables.foldl
    (fun mm table =>
      sp.filters.foldl
        (fun mm2 fcond =>
          if containsSub (pyLower table).data (pyLower fcond).data then
            bumpNested mm2 table fcond
          else mm2)
        (ensureKey mm table))
    acc.filterCounts
  let ac := sp.tables.foldl
    (fun mm table =>
      sp.aggregations.foldl (fun mm2 agg => bumpNested mm2 table agg)
        (ensureKey mm table))
    acc.aggCounts
  let calcs :=
    if businessKeywords.any
        (fun kw => containsSub kw.data (pyLower extract.sql_query).data) then
      acc.calcs ++ [extract.sql_query]
    else acc.calcs
  let dps :=
    if dateFunctions.any (fun f => sp.functions.contains f) then
      acc.datePatterns ++ sp.filters.filter
        (fun fcond => dateWords.any
          (fun w => containsSub w.data (pyLower fcond).data))
    else acc.datePatterns
  ⟨rel, jc, fc, ac, calcs, dps, msp.1⟩

/-- Embeds `sorted(d.items(), key=lambda x: x[1], reverse=True)[:5]` keys: a
stable descending sort by count (Python's `sorted` with `reverse=True` is
stable, so ties keep dict insertion order). -/
def topFive (inner : List (String × Nat)) : List String :=
  ((inner.mergeSort (fun a b => b.2 ≤ a.2)).take 5).map (·.1)

/-- Embeds `SQLAnalyzer.analyze_business_patterns`: fold the per-extract step,
then finalize the top-five filter and aggregation tables. -/
def analyzeBusinessPatterns (parseOracle : String → Option ParsedStatement)
    (m0 : AliasMap) (sql_extracts : List SQLExtract) :
    AliasMap × BusinessPattern :=
  let acc := sql_extracts.foldl (bpStep parseOracle) ⟨[], [], [], [], [], [], m0⟩
  (acc.m,
    { table_relationships := acc.relationships
      common_filters := acc.filterCounts.map fun p => (p.1, topFive p.2)
      business_calculations := acc.calcs
      date_patterns := acc.datePatterns
      aggregation_patterns := acc.aggCounts.map fun p => (p.1, topFive p.2) })

/-! ## SQL analyzer: `SQLAnalyzer.format_patterns_for_context`
(lines 384-422)

The only place the function's output depends on Python hash-iteration
order is `list(set(business_pattern.date_patterns[:5]))`; that conversion
is abstracted as the `setList` parameter (a fixed function within one
process).  The dict fields and the relationship sets are modelled as
insertion-ordered lists, so their iteration order is part of the input
value. -/

def formatPatternsForContext (setList : List String → List String)
    (bp : BusinessPattern) : String :=
  let parts1 :=
    if bp.table_relationships.isEmpty then []
    else "## Common Table Relationships" ::
      bp.table_relationships.map fun p =>
        "- " ++ p.1 ++ " commonly joined with: " ++ ", ".intercalate p.2
  let parts2 :=
    if bp.common_filters.isEmpty then []
    else "\n## Common Filters by Table" ::
      bp.common_filters.filterMap fun p =>
        if p.2.isEmpty then none
        else some ("- " ++ p.1 ++ ": " ++ ", ".intercalate (p.2.take 3))
  let parts3 :=
    if bp.aggregation_patterns.isEmpty then []
    else "\n## Common Aggregations by Table" ::
      bp.aggregation_patterns.filterMap fun p =>
        if p.2.isEmpty then none
        else some ("- " ++ p.1 ++ ": " ++ ", ".intercalate (p.2.take 3))
  let parts4 :=
    if bp.date_patterns.isEmpty then []
    else "\n## Common Date Filters" ::
      (setList (bp.date_patterns.take 5)).map fun s => "- " ++ s
  "\n".intercalate (parts1 ++ parts2 ++ parts3 ++ parts4)

/-! ## Concrete fixtures used by witnesses and counterexamples -/

/-- An embedding oracle whose first attempt fails with a non-throttling
provider error and whose later attempts would succeed. -/
def envNonThrottle : EmbedEnv :=
  ⟨true, fun i => if i = 0 then .clientError "ValidationException" else .ok (some [1])⟩

/-- The same oracle with a throttling first attempt instead. -/
def envThrottle : EmbedEnv :=
  ⟨true, fun i => if i = 0 then .clientError "ThrottlingException" else .ok (some [1])⟩

/-- The SQL-detection rule exactly as the claim words it: after comment
stripping, a leading DML/DDL keyword anchored at the start of some line
(case-insensitive), or a `%sql` / `%%sql` magic marker anywhere in the
text. -/
def claimSqlRule (text : String) : Bool :=
  let t := stripBlockComments (stripLineComments text.data)
  (pySplitChar '\n' t).any
      (fun line => sqlKeywords.any fun kw => startsWithCI kw.data line) ||
    containsSubCI "%sql".data t || containsSubCI "%%sql".data t

/-- A code cell holding a bare `%sql` magic with no trailing whitespace. -/
def cellBareMagic : NotebookCell :=
  ⟨"code", "%sql", [], none, none⟩

/-- A code cell holding a bare `SELECT` keyword with no trailing
whitespace. -/
def cellBareSelect : NotebookCell :=
  ⟨"code", "SELECT", [], none, none⟩

/-- A code cell holding an ordinary query. -/
def cellQuery : NotebookCell :=
  ⟨"code", "select * from t", [], none, none⟩

/-- A three-cell notebook: markdown, SQL, markdown. -/
def nbRoundTrip : ParsedNotebook :=
  let md1 : NotebookCell := ⟨"markdown", "Compute totals", [], none, none⟩
  let sqlc : NotebookCell := ⟨"code", "SELECT a FROM t", [], some 1, some []⟩
  let md2 : NotebookCell := ⟨"markdown", "Done", [], none, none⟩
  { notebook_path := "nb/demo.ipynb"
    notebook_type := "jupyter"
    cells := [md1, sqlc, md2]
    metadata := []
    sql_cells := [sqlc]
    markdown_cells := [md1, md2] }

/-- The SQL cell of `nbRoundTrip`. -/
def nbRoundTripSql : NotebookCell :=
  ⟨"code", "SELECT a FROM t", [], some 1, some []⟩

/-- A query whose WHERE clause combines a date-vocabulary function with a
date word, demonstrating the date-pattern miner's failing input. -/
def dateSql : String :=
  "SELECT * FROM orders WHERE order_date >= DATE_TRUNC('month', x)"

/-- The sqlparse view of `dateSql`: the statement text is the cleaned
query, and the single top-level `Where` group spans from `WHERE` to the
end of the statement (token lists are irrelevant to the fields exercised
here and are left empty). -/
def dateStatement : ParsedStatement :=
  { text := dateSql
    topTokens := []
    flatTokens := []
    whereGroups := ["WHERE order_date >= DATE_TRUNC('month', x)"] }

/-- A parse oracle serving exactly the `dateSql` statement. -/
def dateOracle : String → Option ParsedStatement :=
  fun s => if s = dateSql then some dateStatement else none

/-- The extract corpus for the date-pattern failing input. -/
def dateExtract : SQLExtract :=
  { notebook_path := "nb/demo.ipynb"
    notebook_type := "jupyter"
    sql_query := dateSql
    context_before := ""
    context_after := ""
    cell_metadata := []
    execution_count := none }

/-- Every character of the string is an image of `Char.toUpper` — the
shape of every name the uppercased-text extractors can produce. -/
def upperish (x : String) : Prop :=
  ∀ c ∈ x.data, ∃ y, c = Char.toUpper y

/-! ## Helper lemmas -/

/-- A string with a non-empty prefix is non-empty. -/
theorem append_ne_empty_of_left (a b : String) (ha : a.data ≠ []) :
    a ++ b ≠ "" := by
  intro h
  apply ha
  have hd : (a ++ b).data = a.data ++ b.data := String.data_append a b
  have : a.data ++ b.data = ([] : List Char) := by
    rw [← hd, h]
  exact List.append_eq_nil.mp this |>.1

/-! ## C6: dangerous-keyword rejection in `validate_sql` -/

/-- C6: for every SQL string containing one of the dangerous keywords
DROP, DELETE, TRUNCATE, ALTER, INSERT, UPDATE as a substring of its
uppercased text (at any position, including inside identifiers or
literals), `validate_sql` returns invalid together with a non-empty
message. -/
theorem validateSql_dangerous_invalid (s : String) (kw : String)
    (hmem : kw ∈ dangerousKeywords)
    (hsub : containsSub kw.data (pyUpper s).data = true) :
    (validateSql s).1 = false ∧ (validateSql s).2 ≠ "" := by
  unfold validateSql
  split
  · exact ⟨rfl, by decide⟩
  · have hfind : (firstDangerous (pyUpper s)).isSome := by
      unfold firstDangerous
      rw [List.find?_isSome]
      exact ⟨kw, hmem, hsub⟩
    obtain ⟨kw', hkw'⟩ := Option.isSome_iff_exists.mp hfind
    rw [hkw']
    refine ⟨rfl, ?_⟩
    exact append_ne_empty_of_left _ _ (by decide)

/-- C6 witness: `DROP TABLE x` is rejected. -/
theorem validateSql_dangerous_invalid_witness :
    ("DROP" ∈ dangerousKeywords ∧
      containsSub "DROP".data (pyUpper "DROP TABLE x").data = true) ∧
    ((validateSql "DROP TABLE x").1 = false ∧
      (validateSql "DROP TABLE x").2 ≠ "") := by
  refine ⟨⟨by decide, by decide⟩, ?_, ?_⟩
  · exact (validateSql_dangerous_invalid "DROP TABLE x" "DROP" (by decide)
      (by decide)).1
  · exact (validateSql_dangerous_invalid "DROP TABLE x" "DROP" (by decide)
      (by decide)).2

/-! ## C8: response-parser scenario -/

/-- C8: a model response with a `sql`-tagged fenced block `SELECT 1`, a
`Confidence: 0.93` line and an `Explanation: trivial` line parses to
`("SELECT 1;", 0.93, "trivial")`; without the confidence line the
confidence defaults to `0.8`, and without the explanation line the
explanation defaults to the entire raw response. -/
theorem parseClaudeResponse_scenario :
    parseClaudeResponse
        "```sql\nSELECT 1\n```\nConfidence: 0.93\nExplanation: trivial" =
      ("SELECT 1;", (0.93 : ℚ), "trivial") ∧
    parseClaudeResponse "```sql\nSELECT 1\n```" =
      ("SELECT 1;", (0.8 : ℚ), "```sql\nSELECT 1\n```") := by
  constructor
  · rw [show parseClaudeResponse
        "```sql\nSELECT 1\n```\nConfidence: 0.93\nExplanation: trivial" =
        ("SELECT 1;", pyFloatVal 0 93 2, "trivial") from rfl]
    norm_num [Prod.mk.injEq, pyFloatVal]
  · rfl

/-! ## C9: determinism of `format_patterns_for_context` -/

/-- C9: `format_patterns_for_context` is deterministic: within one process
(one `list(set(...))` conversion function `setList`), two business
patterns with the same relationships, filters, calculations, date
patterns and aggregations in the same order format to the identical
string. -/
theorem formatPatterns_deterministic (setList : List String → List String)
    (b₁ b₂ : BusinessPattern)
    (h1 : b₁.table_relationships = b₂.table_relationships)
    (h2 : b₁.common_filters = b₂.common_filters)
    (h3 : b₁.business_calculations = b₂.business_calculations)
    (h4 : b₁.date_patterns = b₂.date_patterns)
    (h5 : b₁.aggregation_patterns = b₂.aggregation_patterns) :
    formatPatternsForContext setList b₁ = formatPatternsForContext setList b₂ := by
  cases b₁
  cases b₂
  simp only at h1 h2 h3 h4 h5
  subst h1 h2 h3 h4 h5
  rfl

/-- C9 witness: two structurally equal patterns format identically. -/
theorem formatPatterns_deterministic_witness :
    formatPatternsForContext id
        ⟨[("a", ["b"])], [("a", ["x = 1"])], ["q"], ["d >= 1"], [("a", ["SUM"])]⟩ =
      formatPatternsForContext id
        ⟨[("a", ["b"])], [("a", ["x = 1"])], ["q"], ["d >= 1"], [("a", ["SUM"])]⟩ :=
  formatPatterns_deterministic id _ _ rfl rfl rfl rfl rfl

/-! ## C2: retry policy of `generate_embedding` -/

/-- C2 counterexample: the retry policy is not the same for every error
class.  A non-throttling `ClientError` on the first attempt returns null
immediately — one attempt, no backoff sleep — even though a retry would
have succeeded, while the identical schedule with a throttling first
attempt is retried once with backoff and succeeds. -/
theorem generateEmbedding_policy_not_uniform :
    generateEmbedding envNonThrottle "hello" = ⟨none, 1, []⟩ ∧
    generateEmbedding envThrottle "hello" =
      ⟨some [1], 2, [exponentialBackoff 0]⟩ := by
  exact ⟨rfl, rfl⟩

/-- C2 amended: blank input returns null without any attempt; a
non-throttling `ClientError` returns null immediately with no retry; a
throttling error or a non-`ClientError` exception is retried with the
same exponential backoff (`min(base * 2^attempt, cap)`); when every
attempt fails with a retryable error, the three attempts are exhausted
with backoff sleeps `1, 2` and null is returned; the backoff doubles and
is capped at `30`. -/
theorem generateEmbedding_retry_behavior :
    (∀ env text, isBlank text = true →
      generateEmbedding env text = ⟨none, 0, []⟩) ∧
    (∀ env text c, isBlank text = false → env.modelSupported = true →
      env.outcomes 0 = .clientError c → c ≠ "ThrottlingException" →
      generateEmbedding env text = ⟨none, 1, []⟩) ∧
    (∀ env text e, isBlank text = false → env.modelSupported = true →
      env.outcomes 0 = .clientError "ThrottlingException" →
      env.outcomes 1 = .ok (some e) → e ≠ [] →
      generateEmbedding env text = ⟨some e, 2, [exponentialBackoff 0]⟩) ∧
    (∀ env text e, isBlank text = false → env.modelSupported = true →
      env.outcomes 0 = .exn →
      env.outcomes 1 = .ok (some e) → e ≠ [] →
      generateEmbedding env text = ⟨some e, 2, [exponentialBackoff 0]⟩) ∧
    (∀ env text, isBlank text = false → env.modelSupported = true →
      (∀ i, i < 3 → env.outcomes i = .exn ∨
        env.outcomes i = .clientError "ThrottlingException") →
      generateEmbedding env text =
        ⟨none, 3, [exponentialBackoff 0, exponentialBackoff 1]⟩) ∧
    (exponentialBackoff 0 = 1 ∧ exponentialBackoff 1 = 2 ∧
      exponentialBackoff 10 = 30) := by
  refine ⟨?_, ?_, ?_, ?_, ?_, ?_, ?_, ?_⟩
  · intro env text hb
    simp [generateEmbedding, hb]
  · intro env text c hb hm h0 hc
    simp [generateEmbedding, hb, maxRetries, runAttempts, hm, h0, hc]
  · intro env text e hb hm h0 h1 he
    simp [generateEmbedding, hb, maxRetries, runAttempts, hm, h0, h1, he]
  · intro env text e hb hm h0 h1 he
    simp [generateEmbedding, hb, maxRetries, runAttempts, hm, h0, h1, he]
  · intro env text hb hm hall
    have h0 := hall 0 (by norm_num)
    have h1 := hall 1 (by norm_num)
    have h2 := hall 2 (by norm_num)
    rcases h0 with h0 | h0 <;> rcases h1 with h1 | h1 <;>
      rcases h2 with h2 | h2 <;>
      simp [generateEmbedding, hb, maxRetries, runAttempts, hm, h0, h1, h2]
  · norm_num [exponentialBackoff]
  · norm_num [exponentialBackoff]
  · norm_num [exponentialBackoff]

/-- C2 amended witness: the immediate-null branch applied at a concrete
environment. -/
theorem generateEmbedding_retry_behavior_witness :
    (isBlank "hello" = false ∧ envNonThrottle.modelSupported = true ∧
      envNonThrottle.outcomes 0 = .clientError "ValidationException" ∧
      "ValidationException" ≠ "ThrottlingException") ∧
    generateEmbedding envNonThrottle "hello" = ⟨none, 1, []⟩ :=
  ⟨⟨by decide, rfl, rfl, by decide⟩,
    generateEmbedding_retry_behavior.2.1 envNonThrottle "hello"
      "ValidationException" (by decide) rfl rfl (by decide)⟩

/-! ## C1: the `generate_sql` failure contract -/

/-- C1: for every oracle environment and question, `generate_sql` returns
an `SQLResult` (it is a total function) whose `sql_query` is empty exactly
when one of the failure modes occurred (embedding failure, a retrieval
exception, zero hits, or generation/parsing failure); on failure the
result carries zero confidence and a non-empty explanation message, and
`execution_time` is always filled in from the elapsed time. -/
theorem generateSql_failure_contract (env : QueryEnv) (q : String)
    (n : Nat) (hyb : Bool) :
    ((generateSql env q n hyb).sql_query = "" ↔ generateFailed env hyb = true) ∧
    (generateFailed env hyb = true →
      (generateSql env q n hyb).confidence = 0 ∧
      (generateSql env q n hyb).sql_query = "" ∧
      (generateSql env q n hyb).explanation ≠ "") ∧
    (generateSql env q n hyb).execution_time = env.elapsed := by
  unfold generateSql generateFailed
  cases hemb : truthyEmb env.queryEmbedding
  · simp [hemb, createErrorResult]
  · simp only [hemb, Bool.not_true, Bool.false_or, Bool.false_eq_true,
      if_false]
    cases hs : (if hyb then env.hybridResult else env.vectorResult) with
    | error e =>
      simp [hs, createErrorResult]
      exact append_ne_empty_of_left _ _ (by decide)
    | ok docs =>
      simp only [hs]
      cases docs with
      | nil =>
        simp [createErrorResult]
      | cons d ds =>
        by_cases hsql : (generateSqlWithClaude env).1 = ""
        · simp [hsql, createErrorResult]
        · simp [hsql, beq_iff_eq]

/-- C1 witness: the embedding-failure mode at a concrete environment. -/
theorem generateSql_failure_contract_witness :
    (generateFailed
        ⟨none, .ok [], .ok [], .ok none, .ok none, .ok "", 7⟩ true = true) ∧
    ((generateSql ⟨none, .ok [], .ok [], .ok none, .ok none, .ok "", 7⟩
        "q" 5 true).confidence = 0 ∧
      (generateSql ⟨none, .ok [], .ok [], .ok none, .ok none, .ok "", 7⟩
        "q" 5 true).sql_query = "" ∧
      (generateSql ⟨none, .ok [], .ok [], .ok none, .ok none, .ok "", 7⟩
        "q" 5 true).explanation ≠ "") :=
  ⟨rfl,
    (generateSql_failure_contract
      ⟨none, .ok [], .ok [], .ok none, .ok none, .ok "", 7⟩ "q" 5 true).2.1 rfl⟩

/-! ## C7: `analyze_query` on blank input -/

/-- A Python whitespace character is one of the six concrete characters. -/
theorem isPySpace_cases (c : Char) (h : isPySpace c = true) :
    c = ' ' ∨ c = '\t' ∨ c = '\n' ∨ c = '\r' ∨ c = '\x0b' ∨ c = '\x0c' := by
  simp only [isPySpace, Bool.or_eq_true, beq_iff_eq] at h
  tauto

/-- Whitespace never matches `%` case-insensitively. -/
theorem pySpace_not_pct (c : Char) (h : isPySpace c = true) :
    charCI '%' c = false := by
  rcases isPySpace_cases c h with h | h | h | h | h | h <;> subst h <;> decide

/-- Magic-stripping leaves all-whitespace text unchanged. -/
theorem stripMagicF_allspace (ps : List Char) :
    ∀ (fuel : Nat) (b : Bool) (l : List Char), l.all isPySpace = true →
      stripMagicF ('%' :: ps) fuel b l = l := by
  intro fuel
  induction fuel with
  | zero => intro b l _; rfl
  | succ f ih =>
    intro b l h
    cases l with
    | nil => rfl
    | cons c rest =>
      rw [List.all_cons, Bool.and_eq_true] at h
      have hsw : startsWithCI ('%' :: ps) (c :: rest) = false := by
        simp [startsWithCI, pySpace_not_pct c h.1]
      unfold stripMagicF
      rw [hsw, Bool.and_false]
      simp only [Bool.false_eq_true, if_false]
      rw [ih _ _ h.2]

/-- Line-comment removal leaves all-whitespace text unchanged. -/
theorem stripLineCommentsF_allspace :
    ∀ (fuel : Nat) (l : List Char), l.all isPySpace = true →
      stripLineCommentsF fuel l = l := by
  intro fuel
  induction fuel with
  | zero => intro l _; rfl
  | succ f ih =>
    intro l h
    cases l with
    | nil => rfl
    | cons c rest =>
      rw [List.all_cons, Bool.and_eq_true] at h
      have hr := ih rest h.2
      rcases isPySpace_cases c h.1 with hc | hc | hc | hc | hc | hc <;>
        subst hc <;> (show _ = _ ; simp [stripLineCommentsF, hr])

/-- Block-comment removal leaves all-whitespace text unchanged. -/
theorem stripBlockCommentsF_allspace :
    ∀ (fuel : Nat) (l : List Char), l.all isPySpace = true →
      stripBlockCommentsF fuel l = l := by
  intro fuel
  induction fuel with
  | zero => intro l _; rfl
  | succ f ih =>
    intro l h
    cases l with
    | nil => rfl
    | cons c rest =>
      rw [List.all_cons, Bool.and_eq_true] at h
      have hr := ih rest h.2
      rcases isPySpace_cases c h.1 with hc | hc | hc | hc | hc | hc <;>
        subst hc <;> (show _ = _ ; simp [stripBlockCommentsF, hr])

/-- Any element of `dropWhile` was an element of the list. -/
theorem all_dropWhile (p q : Char → Bool) (l : List Char)
    (h : l.all p = true) : (l.dropWhile q).all p = true := by
  rw [List.all_eq_true] at h ⊢
  intro x hx
  exact h x ((List.dropWhile_sublist q (l := l)).subset hx)

/-- Whitespace collapsing keeps all-whitespace text all-whitespace. -/
theorem collapseWsF_allspace :
    ∀ (fuel : Nat) (l : List Char), l.all isPySpace = true →
      (collapseWsF fuel l).all isPySpace = true := by
  intro fuel
  induction fuel with
  | zero => intro l h; exact h
  | succ f ih =>
    intro l h
    cases l with
    | nil => exact h
    | cons c rest =>
      rw [List.all_cons, Bool.and_eq_true] at h
      unfold collapseWsF
      rw [if_pos h.1]
      rw [List.all_cons]
      exact Bool.and_eq_true .. |>.mpr ⟨by decide, ih _ (all_dropWhile _ _ _ h.2)⟩

/-- Stripping an all-whitespace list yields the empty list. -/
theorem pyStripL_allspace (l : List Char) (h : l.all isPySpace = true) :
    pyStripL l = [] := by
  unfold pyStripL
  have : l.dropWhile isPySpace = [] := by
    rw [List.dropWhile_eq_nil_iff]
    rw [List.all_eq_true] at h
    exact fun x hx => h x hx
  rw [this]
  rfl

/-- Cleaning via `_clean_sql` maps every blank string to the empty string. -/
theorem cleanSql_blank (s : String) (hs : s.data.all isPySpace = true) :
    cleanSql s = "" := by
  unfold cleanSql stripMagic stripLineComments stripBlockComments
  dsimp only
  rw [stripMagicF_allspace _ _ _ _ hs, stripMagicF_allspace _ _ _ _ hs,
    stripLineCommentsF_allspace _ _ hs, stripBlockCommentsF_allspace _ _ hs]
  have h1 := collapseWsF_allspace s.data.length s.data hs
  rw [show ("" : String) = String.mk [] from rfl]
  rw [pyStripL_allspace _ h1]

/-- C7: on every empty or whitespace-only input (with the sqlparse oracle
returning no statement for the empty cleaned string, so that `parsed[0]`
raises), `analyze_query` returns the UNKNOWN pattern with all collection
fields empty, without raising, and the analyzer state is untouched. -/
theorem analyzeQuery_blank (parseOracle : String → Option ParsedStatement)
    (h0 : parseOracle "" = none) (m0 : AliasMap) (s ctx : String)
    (hs : s.data.all isPySpace = true) :
    analyzeQuery parseOracle m0 s ctx = (m0, emptyPattern) := by
  unfold analyzeQuery
  rw [cleanSql_blank s hs, h0]

/-- C7 witness: the blank-input contract at a concrete oracle and
input. -/
theorem analyzeQuery_blank_witness :
    ((fun _ : String => (none : Option ParsedStatement)) "" = none ∧
      ("  ".data.all isPySpace = true)) ∧
    analyzeQuery (fun _ => none) [] "  " "" = ([], emptyPattern) :=
  ⟨⟨rfl, by decide⟩, analyzeQuery_blank (fun _ => none) rfl [] "  " "" (by decide)⟩

/-! ## C5: SQL-cell classification -/

/-- C5 counterexample: the claim's "magic marker anywhere" / "leading
keyword" reading disagrees with the code, whose patterns `%sql\s+` and
`^\s*SELECT\s+` both require a following whitespace character.  A bare
`%sql` cell and a bare `SELECT` cell satisfy the claim's rule but are not
classified as SQL cells. -/
theorem containsSql_claim_rule_mismatch :
    (cellBareMagic.cell_type = "code" ∧
      claimSqlRule cellBareMagic.source = true ∧
      (categorizeCells [cellBareMagic]).1 = []) ∧
    (cellBareSelect.cell_type = "code" ∧
      claimSqlRule cellBareSelect.source = true ∧
      (categorizeCells [cellBareSelect]).1 = []) := by
  decide

/-- The `sql_cells` accumulator of the classification loop collects
exactly the code cells accepted by `_contains_sql`. -/
theorem categorize_foldl_fst (cells : List NotebookCell) :
    ∀ acc : List NotebookCell × List NotebookCell,
      (cells.foldl categorizeStep acc).1 =
        acc.1 ++ cells.filter
          (fun c => c.cell_type == "code" && containsSql c.source) := by
  induction cells with
  | nil => intro acc; simp
  | cons c rest ih =>
    intro acc
    rw [List.foldl_cons, ih]
    by_cases h : (c.cell_type == "code" && containsSql c.source) = true
    · simp [categorizeStep, h, List.filter_cons]
    · have h1 : (categorizeStep acc c).1 = acc.1 := by
        unfold categorizeStep
        rw [if_neg (by simp_all)]
        split <;> rfl
      rw [h1]
      simp [List.filter_cons, h]

/-- C5 amended: a cell is classified as an SQL cell iff its `cell_type`
is `'code'` and, after removing `--` and `/*...*/` comments, its source
matches a leading SELECT/WITH/INSERT/UPDATE/DELETE/CREATE/ALTER/DROP
keyword *followed by a whitespace character* (case-insensitive, after
optional whitespace from a line start), or contains `%sql` *followed by a
whitespace character*, or contains `%%sql` anywhere; empty or
whitespace-only sources are never SQL-classified. -/
theorem sqlCellClassification :
    (∀ cells c, c ∈ (categorizeCells cells).1 ↔
      (c ∈ cells ∧ c.cell_type = "code" ∧ containsSql c.source = true)) ∧
    (∀ s : String, s.data.all isPySpace = true → containsSql s = false) := by
  constructor
  · intro cells c
    unfold categorizeCells
    rw [categorize_foldl_fst]
    simp [List.mem_filter, and_assoc]
  · intro s hs
    unfold containsSql
    rw [if_pos]
    exact hs

/-- C5 amended witness: an ordinary `select ... from ...` cell is
classified, and blank text is rejected, at concrete inputs. -/
theorem sqlCellClassification_witness :
    containsSql "  " = false ∧
    (cellQuery ∈ (categorizeCells [cellQuery]).1 ↔
      (cellQuery ∈ [cellQuery] ∧ cellQuery.cell_type = "code" ∧
        containsSql cellQuery.source = true)) :=
  ⟨sqlCellClassification.2 "  " (by decide),
    sqlCellClassification.1 [cellQuery] cellQuery⟩

/-! ## C4: the markdown context window -/

/-- C4: every extract comes from a notebook's SQL cell via
`buildExtract`, and for the located index `i` of that cell,
`context_before` / `context_after` are exactly the single-space joins of
the collected window lists, whose every element is the source of a
markdown-typed cell at most 3 positions before (respectively after) index
`i` — no non-markdown cell and no markdown cell beyond the 3-cell radius
ever contributes. -/
theorem extractSqlWithContext_window :
    (∀ nbs e, e ∈ extractSqlWithContext nbs →
      ∃ nb ∈ nbs, ∃ c ∈ nb.sql_cells, e = buildExtract nb c) ∧
    (∀ (nb : ParsedNotebook) (c : NotebookCell) (i : Nat),
      findCellIndex nb.cells c = some i →
      (buildExtract nb c).context_before =
        " ".intercalate (contextBeforeList nb.cells i) ∧
      (buildExtract nb c).context_after =
        " ".intercalate (contextAfterList nb.cells i) ∧
      (∀ s ∈ contextBeforeList nb.cells i, ∃ j cell,
        nb.cells.get? j = some cell ∧ cell.cell_type = "markdown" ∧
        cell.source = s ∧ j < i ∧ i ≤ j + 3) ∧
      (∀ s ∈ contextAfterList nb.cells i, ∃ j cell,
        nb.cells.get? j = some cell ∧ cell.cell_type = "markdown" ∧
        cell.source = s ∧ i < j ∧ j ≤ i + 3)) := by
  constructor
  · intro nbs e he
    unfold extractSqlWithContext at he
    rw [List.mem_flatMap] at he
    obtain ⟨nb, hnb, he⟩ := he
    rw [List.mem_map] at he
    obtain ⟨c, hc, rfl⟩ := he
    exact ⟨nb, hnb, c, hc, rfl⟩
  · intro nb c i hi
    refine ⟨by simp [buildExtract, hi], by simp [buildExtract, hi], ?_, ?_⟩
    · intro s hs
      unfold contextBeforeList at hs
      rw [List.mem_filterMap] at hs
      obtain ⟨j, hj, hval⟩ := hs
      rw [List.mem_filter, List.mem_range] at hj
      refine ⟨j, ?_⟩
      cases hcell : nb.cells.get? j with
      | none => rw [hcell] at hval; exact absurd hval (by simp)
      | some cell =>
        rw [hcell] at hval
        dsimp only at hval
        refine ⟨cell, rfl, ?_⟩
        by_cases hmd : cell.cell_type = "markdown"
        · rw [if_pos hmd] at hval
          have hsrc : cell.source = s := by
            exact Option.some.inj hval
          have hrange : i - 3 ≤ j := by
            have := hj.2
            exact of_decide_eq_true this
          exact ⟨hmd, hsrc, hj.1, by omega⟩
        · rw [if_neg hmd] at hval
          exact absurd hval (by simp)
    · intro s hs
      unfold contextAfterList at hs
      rw [List.mem_filterMap] at hs
      obtain ⟨j, hj, hval⟩ := hs
      rw [List.mem_filter, List.mem_range] at hj
      refine ⟨j, ?_⟩
      cases hcell : nb.cells.get? j with
      | none => rw [hcell] at hval; exact absurd hval (by simp)
      | some cell =>
        rw [hcell] at hval
        dsimp only at hval
        refine ⟨cell, rfl, ?_⟩
        by_cases hmd : cell.cell_type = "markdown"
        · rw [if_pos hmd] at hval
          have hsrc : cell.source = s := Option.some.inj hval
          have hrange : i + 1 ≤ j := of_decide_eq_true hj.2
          have hlt : j < min nb.cells.length (i + 4) := hj.1
          exact ⟨hmd, hsrc, by omega, by
            have := Nat.lt_min.mp hlt
            omega⟩
        · rw [if_neg hmd] at hval
          exact absurd hval (by simp)

/-- C4 witness: the round-trip notebook (markdown, SQL, markdown) locates
its SQL cell at index 1, the joined contexts are the neighbouring
markdown sources, and the window facts hold there. -/
theorem extractSqlWithContext_window_witness :
    (findCellIndex nbRoundTrip.cells nbRoundTripSql = some 1 ∧
      (buildExtract nbRoundTrip nbRoundTripSql).context_before =
        "Compute totals" ∧
      (buildExtract nbRoundTrip nbRoundTripSql).context_after = "Done") ∧
    ((buildExtract nbRoundTrip nbRoundTripSql).context_before =
        " ".intercalate (contextBeforeList nbRoundTrip.cells 1) ∧
      (buildExtract nbRoundTrip nbRoundTripSql).context_after =
        " ".intercalate (contextAfterList nbRoundTrip.cells 1) ∧
      (∀ s ∈ contextBeforeList nbRoundTrip.cells 1, ∃ j cell,
        nbRoundTrip.cells.get? j = some cell ∧ cell.cell_type = "markdown" ∧
        cell.source = s ∧ j < 1 ∧ 1 ≤ j + 3) ∧
      (∀ s ∈ contextAfterList nbRoundTrip.cells 1, ∃ j cell,
        nbRoundTrip.cells.get? j = some cell ∧ cell.cell_type = "markdown" ∧
        cell.source = s ∧ 1 < j ∧ j ≤ 1 + 3)) :=
  ⟨by decide,
    extractSqlWithContext_window.2 nbRoundTrip nbRoundTripSql 1 (by decide)⟩

/-! ## C10: the alias map is always empty and resolution is the identity -/

/-- Processing a name token (`_process_name_token`) never writes to the
alias map. -/
theorem processNameToken_map_unchanged (m : AliasMap) (p : SQLPattern)
    (v : String) : (processNameToken m p v).1 = m := by
  unfold processNameToken
  split
  · rfl
  · split
    · split <;> rfl
    · split <;> rfl

/-- One token step leaves the alias map unchanged. -/
theorem nameTokenStep_eta (acc : AliasMap × SQLPattern) (t : SqlToken) :
    nameTokenStep acc t = (acc.1, (nameTokenStep acc t).2) := by
  unfold nameTokenStep
  cases t.ttype
  · rfl
  · exact Prod.ext (processNameToken_map_unchanged acc.1 acc.2 t.value) rfl
  · rfl

/-- The token fold never changes the alias map. -/
theorem foldl_nameTokenStep_fst (toks : List SqlToken) :
    ∀ (m : AliasMap) (p : SQLPattern),
      (toks.foldl nameTokenStep (m, p)).1 = m := by
  induction toks with
  | nil => intro m p; rfl
  | cons t rest ih =>
    intro m p
    rw [List.foldl_cons, nameTokenStep_eta (m, p) t, ih]

/-- Elements already collected stay collected: `addSet` inserts. -/
theorem mem_addSet_of_mem (l : List String) (x y : String) (h : y ∈ l) :
    y ∈ addSet l x := by
  unfold addSet
  split
  · exact h
  · exact List.mem_append_left _ h

/-- The inserted element is collected. -/
theorem mem_addSet_self (l : List String) (x : String) : x ∈ addSet l x := by
  unfold addSet
  split
  · assumption
  · exact List.mem_append_right _ (List.mem_singleton.mpr rfl)

/-- Processing a name token only grows the tables and columns sets. -/
theorem processNameToken_mono (m : AliasMap) (p : SQLPattern) (v : String)
    (y : String) :
    (y ∈ p.tables → y ∈ (processNameToken m p v).2.tables) ∧
    (y ∈ p.columns → y ∈ (processNameToken m p v).2.columns) := by
  unfold processNameToken
  split
  · exact ⟨id, id⟩
  · split
    · split
      · exact ⟨fun h => mem_addSet_of_mem _ _ _ h,
          fun h => mem_addSet_of_mem _ _ _ h⟩
      · exact ⟨id, id⟩
    · split
      · exact ⟨fun h => mem_addSet_of_mem _ _ _ h, id⟩
      · exact ⟨id, fun h => mem_addSet_of_mem _ _ _ h⟩

/-- The token fold only grows the tables and columns sets. -/
theorem foldl_nameTokenStep_mono (toks : List SqlToken) :
    ∀ (m : AliasMap) (p : SQLPattern) (y : String),
      (y ∈ p.tables → y ∈ ((toks.foldl nameTokenStep (m, p)).2).tables) ∧
      (y ∈ p.columns → y ∈ ((toks.foldl nameTokenStep (m, p)).2).columns) := by
  induction toks with
  | nil => intro m p y; exact ⟨id, id⟩
  | cons t rest ih =>
    intro m p y
    rw [List.foldl_cons, nameTokenStep_eta (m, p) t]
    have hstep := processNameToken_mono m p t.value y
    have hrest := ih m (nameTokenStep (m, p) t).2 y
    constructor
    · intro h
      refine hrest.1 ?_
      unfold nameTokenStep
      cases t.ttype
      · exact h
      · exact hstep.1 h
      · exact h
    · intro h
      refine hrest.2 ?_
      unfold nameTokenStep
      cases t.ttype
      · exact h
      · exact hstep.2 h
      · exact h

/-- A list with no separator splits to itself. -/
theorem pySplitChar_no_sep (sep : Char) (l : List Char)
    (h : ∀ c ∈ l, c ≠ sep) : pySplitChar sep l = [l] := by
  induction l with
  | nil => rfl
  | cons c rest ih =>
    simp only [pySplitChar]
    rw [if_neg (by simpa using h c (List.mem_cons_self c rest))]
    rw [ih (fun x hx => h x (List.mem_cons_of_mem c hx))]

/-- Splitting `a ++ sep :: b` with no separator in `a` or `b` yields
`[a, b]` (the Python `value.split('.')` two-part case). -/
theorem pySplitChar_append (sep : Char) (a b : List Char)
    (ha : ∀ c ∈ a, c ≠ sep) (hb : ∀ c ∈ b, c ≠ sep) :
    pySplitChar sep (a ++ sep :: b) = [a, b] := by
  induction a with
  | nil =>
    rw [List.nil_append]
    simp only [pySplitChar]
    rw [if_pos (by simp)]
    rw [pySplitChar_no_sep sep b hb]
  | cons c a' ih =>
    rw [List.cons_append]
    simp only [pySplitChar]
    rw [if_neg (by simpa using ha c (List.mem_cons_self c a'))]
    rw [ih (fun x hx => ha x (List.mem_cons_of_mem c hx))]

/-- A dotted name never hits the keyword skip list. -/
theorem dotted_not_skip (v : String) (hdot : '.' ∈ v.data) :
    ¬ (nameSkipList.contains (pyUpper v) = true) := by
  intro h
  obtain ⟨w, hw, hbeq⟩ := List.contains_iff_exists_mem_beq.mp h
  rw [beq_iff_eq] at hbeq
  have hdotu : '.' ∈ (pyUpper v).data := by
    have h1 := List.mem_map_of_mem Char.toUpper hdot
    simpa [pyUpper] using h1
  rw [hbeq] at hdotu
  simp only [nameSkipList, List.mem_cons, List.not_mem_nil, or_false] at hw
  rcases hw with h' | h' | h' | h' | h' | h' | h' <;>
    (subst h'; revert hdotu; decide)

/-- C10: throughout the token walk the alias map stays empty — it is
reset at the start, and `_process_name_token` never inserts — so alias
resolution is the identity: every dotted `a.b` name token contributes the
qualifier `a` verbatim to `tables` and `b` to `columns`, regardless of any
AS-alias declarations in the query. -/
theorem aliasMap_empty_and_identity :
    (∀ (m : AliasMap) (p : SQLPattern) (v : String),
      (processNameToken m p v).1 = m) ∧
    (∀ (m0 : AliasMap) (toks : List SqlToken) (p : SQLPattern),
      (extractTablesAndColumns m0 toks p).1 = []) ∧
    (∀ (m0 : AliasMap) (toks : List SqlToken) (p : SQLPattern) (a b : String),
      (⟨.name, String.mk (a.data ++ '.' :: b.data)⟩ : SqlToken) ∈ toks →
      (∀ c ∈ a.data, c ≠ '.') → (∀ c ∈ b.data, c ≠ '.') →
      a ∈ (extractTablesAndColumns m0 toks p).2.tables ∧
      b ∈ (extractTablesAndColumns m0 toks p).2.columns) := by
  refine ⟨processNameToken_map_unchanged, ?_, ?_⟩
  · intro m0 toks p
    exact foldl_nameTokenStep_fst toks [] p
  · intro m0 toks p a b htok ha hb
    unfold extractTablesAndColumns
    induction toks generalizing p with
    | nil => exact absurd htok (List.not_mem_nil _)
    | cons t rest ih =>
      rw [List.foldl_cons, nameTokenStep_eta ([], p) t]
      rcases List.mem_cons.mp htok with heq | hmem
      · subst heq
        have hdot : '.' ∈ (String.mk (a.data ++ '.' :: b.data)).data := by
          simp
        have hres : (nameTokenStep ([], p)
            ⟨.name, String.mk (a.data ++ '.' :: b.data)⟩).2.tables =
              addSet p.tables a ∧
            (nameTokenStep ([], p)
            ⟨.name, String.mk (a.data ++ '.' :: b.data)⟩).2.columns =
              addSet p.columns b := by
          unfold nameTokenStep processNameToken
          rw [if_neg (dotted_not_skip _ hdot)]
          rw [if_pos (List.contains_iff_exists_mem_beq.mpr
            ⟨'.', hdot, by decide⟩)]
          rw [show (String.mk (a.data ++ '.' :: b.data)).data =
            a.data ++ '.' :: b.data from rfl]
          rw [pySplitChar_append '.' a.data b.data ha hb]
          exact ⟨rfl, rfl⟩
        constructor
        · refine (foldl_nameTokenStep_mono rest [] _ a).1 ?_
          rw [hres.1]
          exact mem_addSet_self _ _
        · refine (foldl_nameTokenStep_mono rest [] _ b).2 ?_
          rw [hres.2]
          exact mem_addSet_self _ _
      · exact ih _ hmem

/-- C10 witness: a concrete `o.amount` name token puts `o` into tables
and `amount` into columns with the alias map empty throughout. -/
theorem aliasMap_empty_and_identity_witness :
    ((⟨.name, String.mk ("o".data ++ '.' :: "amount".data)⟩ : SqlToken) ∈
        [(⟨.name, "o.amount"⟩ : SqlToken)] ∧
      (extractTablesAndColumns [("o", "orders")]
        [⟨.name, "o.amount"⟩] emptyPattern).1 = []) ∧
    ("o" ∈ (extractTablesAndColumns [("o", "orders")]
        [⟨.name, "o.amount"⟩] emptyPattern).2.tables ∧
      "amount" ∈ (extractTablesAndColumns [("o", "orders")]
        [⟨.name, "o.amount"⟩] emptyPattern).2.columns) :=
  ⟨⟨by decide, aliasMap_empty_and_identity.2.1 [("o", "orders")]
      [⟨.name, "o.amount"⟩] emptyPattern⟩,
    aliasMap_empty_and_identity.2.2 [("o", "orders")]
      [⟨.name, "o.amount"⟩] emptyPattern "o" "amount" (by decide)
      (by decide) (by decide)⟩

/-! ## C3: the date-pattern miner never fires

`analyze_business_patterns` tests `func in sql_pattern.functions` with the
lowercase `self.date_functions` vocabulary, but `functions` only ever
receives uppercased names (`date_func.upper()` and matches over
`str(parsed).upper()`), so the membership test is always false and
`date_patterns` stays empty for every corpus. -/

/-- Uppercasing a character never produces a lowercase latin letter. -/
theorem toUpper_ne_lower (x ch : Char) (h1 : 97 ≤ ch.toNat)
    (h2 : ch.toNat ≤ 122) : Char.toUpper x ≠ ch := by
  unfold Char.toUpper
  dsimp only
  split
  next h =>
    obtain ⟨ha, hb⟩ := h
    intro hEq
    rw [← hEq] at h1
    generalize hg : Char.toNat x = n at ha hb h1
    interval_cases n <;> (revert h1; decide)
  next h =>
    intro hEq
    subst hEq
    exact h ⟨h1, h2⟩

/-- A successful `callStep` match draws its name and its continuation
from the input characters. -/
theorem callStep_chars (l : List Char) (w rest : List Char)
    (h : callStep l = some (w, rest)) :
    (∀ c ∈ w, c ∈ l) ∧ (∀ c ∈ rest, c ∈ l) := by
  unfold callStep at h
  dsimp only at h
  by_cases hw : (l.takeWhile isWordChar).isEmpty = true
  · rw [if_pos hw] at h
    exact absurd h (by simp)
  · rw [if_neg hw] at h
    split at h
    next rest'' heq =>
      rw [Option.some.injEq, Prod.mk.injEq] at h
      obtain ⟨hw', hrest⟩ := h
      constructor
      · intro x hx
        rw [← hw'] at hx
        exact (List.takeWhile_sublist isWordChar).subset hx
      · intro x hx
        rw [← hrest] at hx
        have h1 : List.Sublist ('(' :: rest'') (l.dropWhile isWordChar) := by
          rw [← heq]
          exact List.dropWhile_sublist isPySpace
        have hsub : List.Sublist rest'' l :=
          ((List.sublist_cons_self '(' rest'').trans h1).trans
            (List.dropWhile_sublist isWordChar)
        exact hsub.subset hx
    next =>
      exact absurd h (by simp)

/-- Every name produced by the generic call regex over a list whose
characters all satisfy `P` has only `P`-characters. -/
theorem scanAllF_callStep_chars (P : Char → Prop) :
    ∀ (fuel : Nat) (l : List Char), (∀ c ∈ l, P c) →
      ∀ w ∈ scanAllF callStep fuel l, ∀ c ∈ w, P c := by
  intro fuel
  induction fuel with
  | zero => intro l _ w hw; exact absurd hw (List.not_mem_nil w)
  | succ f ih =>
    intro l hl w hw
    cases l with
    | nil => exact absurd hw (List.not_mem_nil w)
    | cons c rest =>
      revert hw
      cases hstep : callStep (c :: rest) with
      | none =>
        intro hw
        unfold scanAllF at hw
        rw [hstep] at hw
        exact ih rest (fun x hx => hl x (List.mem_cons_of_mem c hx)) w hw
      | some pair =>
        intro hw
        unfold scanAllF at hw
        rw [hstep] at hw
        have hchars := callStep_chars (c :: rest) pair.1 pair.2
          (by rw [hstep])
        rcases List.mem_cons.mp hw with heq | hmem
        · subst heq
          exact fun x hx => hl x (hchars.1 x hx)
        · exact ih pair.2 (fun x hx => hl x (hchars.2 x hx)) w hmem

/-- Membership in `addSet` comes from the old set or the new element. -/
theorem mem_addSet_elim (l : List String) (x y : String)
    (h : y ∈ addSet l x) : y ∈ l ∨ y = x := by
  unfold addSet at h
  split at h
  · exact Or.inl h
  · rcases List.mem_append.mp h with h' | h'
    · exact Or.inl h'
    · exact Or.inr (List.mem_singleton.mp h')

/-- Processing a name token never touches the functions set. -/
theorem processNameToken_functions (m : AliasMap) (p : SQLPattern)
    (v : String) : (processNameToken m p v).2.functions = p.functions := by
  unfold processNameToken
  split
  · rfl
  · split
    · split <;> rfl
    · split <;> rfl

/-- One token step never touches the functions set. -/
theorem nameTokenStep_functions (acc : AliasMap × SQLPattern) (t : SqlToken) :
    (nameTokenStep acc t).2.functions = acc.2.functions := by
  unfold nameTokenStep
  cases t.ttype
  · rfl
  · exact processNameToken_functions acc.1 acc.2 t.value
  · rfl

/-- Fold steps that never touch `functions` preserve it. -/
theorem foldl_preserves_functions {α : Type} (g : SQLPattern → α → SQLPattern)
    (hg : ∀ pp x, (g pp x).functions = pp.functions) :
    ∀ (xs : List α) (p : SQLPattern), (xs.foldl g p).functions = p.functions := by
  intro xs
  induction xs with
  | nil => intro p; rfl
  | cons x rest ih => intro p; rw [List.foldl_cons, ih, hg]

/-- The uppercased strings are made of `Char.toUpper` images. -/
theorem pyUpper_upperish (s : String) : upperish (pyUpper s) := by
  intro c hc
  unfold pyUpper at hc
  obtain ⟨y, _, hy⟩ := List.mem_map.mp hc
  exact ⟨y, hy.symm⟩

/-- Every element of `functions` after `_extract_functions_and_aggregations`
is either inherited or an uppercase-image name. -/
theorem extractFunctionsAndAggregations_functions_shape
    (st : ParsedStatement) (p : SQLPattern) :
    ∀ x ∈ (extractFunctionsAndAggregations st p).functions,
      x ∈ p.functions ∨ upperish x := by
  unfold extractFunctionsAndAggregations
  dsimp only
  intro x hx
  -- peel the generic-call fold
  have hcalls : ∀ (ws : List (List Char)) (fns : List String),
      (∀ w ∈ ws, ∀ c ∈ w, ∃ y, c = Char.toUpper y) →
      ∀ z ∈ ws.foldl (fun acc w => addSet acc (String.mk w)) fns,
        z ∈ fns ∨ upperish z := by
    intro ws
    induction ws with
    | nil => intro fns _ z hz; exact Or.inl hz
    | cons w rest ih =>
      intro fns hws z hz
      rw [List.foldl_cons] at hz
      rcases ih (addSet fns (String.mk w))
          (fun v hv => hws v (List.mem_cons_of_mem w hv)) z hz with h' | h'
      · rcases mem_addSet_elim fns (String.mk w) z h' with h'' | h''
        · exact Or.inl h''
        · refine Or.inr ?_
          subst h''
          exact fun c hc => hws w (List.mem_cons_self w rest) c hc
      · exact Or.inr h'
  have hfind : ∀ w ∈ findCalls (pyUpper st.text).data, ∀ c ∈ w,
      ∃ y, c = Char.toUpper y := by
    intro w hw
    exact scanAllF_callStep_chars (fun c => ∃ y, c = Char.toUpper y)
      _ _ (fun c hc => pyUpper_upperish st.text c hc) w hw
  rcases hcalls (findCalls (pyUpper st.text).data) _ hfind x hx with h | h
  · -- inside the date-vocabulary fold
    have hdate : ∀ (gs : List String) (p1 : SQLPattern),
        ∀ z ∈ (gs.foldl (fun pp f =>
          if containsSub (pyUpper f ++ "(").data (pyUpper st.text).data then
            { pp with functions := addSet pp.functions (pyUpper f) }
          else pp) p1).functions,
        z ∈ p1.functions ∨ upperish z := by
      intro gs
      induction gs with
      | nil => intro p1 z hz; exact Or.inl hz
      | cons g rest ih =>
        intro p1 z hz
        rw [List.foldl_cons] at hz
        by_cases hcond :
            containsSub (pyUpper g ++ "(").data (pyUpper st.text).data = true
        · rw [if_pos hcond] at hz
          rcases ih _ z hz with h' | h'
          · rcases mem_addSet_elim _ _ _ h' with h'' | h''
            · exact Or.inl h''
            · exact Or.inr (h'' ▸ pyUpper_upperish g)
          · exact Or.inr h'
        · rw [if_neg hcond] at hz
          exact ih _ z hz
    rcases hdate dateFunctions _ x h with h' | h'
    · -- the aggregation fold leaves functions alone
      left
      have hagg : (aggregationFunctions.foldl (fun pp f =>
          if containsSub (pyUpper f ++ "(").data (pyUpper st.text).data then
            { pp with aggregations := addSet pp.aggregations (pyUpper f) }
          else pp) p).functions = p.functions := by
        refine foldl_preserves_functions _ ?_ _ _
        intro pp f
        by_cases hcond :
            containsSub (pyUpper f ++ "(").data (pyUpper st.text).data = true
        · rw [if_pos hcond]
        · rw [if_neg hcond]
      rw [hagg] at h'
      exact h'
    · exact Or.inr h'
  · exact Or.inr h

/-- Every element of `functions` in an `analyze_query` result is an
uppercase-image name. -/
theorem analyzeQuery_functions_upperish
    (oracle : String → Option ParsedStatement) (m0 : AliasMap)
    (sql ctx : String) :
    ∀ x ∈ (analyzeQuery oracle m0 sql ctx).2.functions, upperish x := by
  unfold analyzeQuery
  dsimp only
  intro x hx
  cases horacle : oracle (cleanSql sql) with
  | none =>
    rw [horacle] at hx
    exact absurd hx (List.not_mem_nil x)
  | some st =>
    rw [horacle] at hx
    dsimp only at hx
    -- subqueries and CTE extraction do not change functions
    have hcte : ∀ (p : SQLPattern), (extractCtes st p).functions = p.functions :=
      fun p => rfl
    have hsub : ∀ (p : SQLPattern),
        (extractSubqueries st p).functions = p.functions := fun p => rfl
    rw [hcte, hsub] at hx
    have hshape := extractFunctionsAndAggregations_functions_shape st _ x hx
    rcases hshape with h | h
    · -- the earlier stages keep functions empty
      exfalso
      have hfil : ∀ (p : SQLPattern),
          (extractFilters st p).functions = p.functions := by
        intro p
        unfold extractFilters
        refine foldl_preserves_functions _ ?_ _ _
        intro pp wg; rfl
      have hjoin : ∀ (p : SQLPattern),
          (extractJoins st p).functions = p.functions := by
        intro p
        unfold extractJoins
        refine foldl_preserves_functions _ ?_ _ _
        intro pp m; rfl
      have hntc : ∀ (toks : List SqlToken) (m : AliasMap) (p : SQLPattern),
          ((toks.foldl nameTokenStep (m, p)).2).functions = p.functions := by
        intro toks
        induction toks with
        | nil => intro m p; rfl
        | cons t rest ih =>
          intro m p
          rw [List.foldl_cons, nameTokenStep_eta (m, p) t, ih,
            nameTokenStep_functions]
      rw [hfil, hjoin] at h
      unfold extractTablesAndColumns at h
      rw [hntc] at h
      exact List.not_mem_nil x h
    · exact h

/-- No lowercase date-vocabulary name is ever in an `analyze_query`
functions set. -/
theorem dateFunctions_not_in_functions
    (oracle : String → Option ParsedStatement) (m0 : AliasMap)
    (sql ctx f : String) (hf : f ∈ dateFunctions) :
    f ∉ (analyzeQuery oracle m0 sql ctx).2.functions := by
  intro hmem
  have hup := analyzeQuery_functions_upperish oracle m0 sql ctx f hmem
  have hlow : ∃ c ∈ f.data, 97 ≤ c.toNat ∧ c.toNat ≤ 122 := by
    fin_cases hf <;> decide
  obtain ⟨c, hc, hcl, hcu⟩ := hlow
  obtain ⟨y, hy⟩ := hup c hc
  exact toUpper_ne_lower y c hcl hcu hy.symm

/-- One mining step never appends a date pattern. -/
theorem bpStep_datePatterns (oracle : String → Option ParsedStatement)
    (acc : BPAcc) (extract : SQLExtract) :
    (bpStep oracle acc extract).datePatterns = acc.datePatterns := by
  unfold bpStep
  dsimp only
  have hfalse : (dateFunctions.any fun f =>
      ((analyzeQuery oracle acc.m extract.sql_query
        extract.context_before).2.functions.contains f)) = false := by
    rw [List.any_eq_false]
    intro f hf
    intro hcont
    obtain ⟨g, hg, hbeq⟩ := List.contains_iff_exists_mem_beq.mp hcont
    rw [beq_iff_eq] at hbeq
    exact dateFunctions_not_in_functions oracle acc.m extract.sql_query
      extract.context_before f hf (hbeq ▸ hg)
  rw [hfalse]
  rfl

/-- The whole mining fold keeps `datePatterns` at its initial value. -/
theorem foldl_bpStep_date (oracle : String → Option ParsedStatement)
    (extracts : List SQLExtract) :
    ∀ acc : BPAcc,
      (extracts.foldl (bpStep oracle) acc).datePatterns = acc.datePatterns := by
  induction extracts with
  | nil => intro acc; rfl
  | cons e rest ih =>
    intro acc
    rw [List.foldl_cons, ih, bpStep_datePatterns]

/-- C3 (code bug): for every parse oracle, analyzer state, and corpus of
extracts, `analyze_business_patterns` returns an empty `date_patterns`
list — the lowercase `date_functions` vocabulary can never be a member of
the all-uppercase `functions` set; and at the concrete failing input the
query does have an uppercase `DATE_TRUNC` function hit and a date-worded
filter, yet `date_patterns` is still empty. -/
theorem datePatterns_always_empty :
    (∀ (oracle : String → Option ParsedStatement) (m0 : AliasMap)
        (extracts : List SQLExtract),
      (analyzeBusinessPatterns oracle m0 extracts).2.date_patterns = []) ∧
    ((analyzeQuery dateOracle [] dateSql "").2.functions.contains
        "DATE_TRUNC" = true ∧
      (analyzeQuery dateOracle [] dateSql "").2.filters =
        ["order_date >= DATE_TRUNC('month', x)"] ∧
      (analyzeBusinessPatterns dateOracle [] [dateExtract]).2.date_patterns =
        []) := by
  have huniv : ∀ (oracle : String → Option ParsedStatement) (m0 : AliasMap)
      (extracts : List SQLExtract),
      (analyzeBusinessPatterns oracle m0 extracts).2.date_patterns = [] := by
    intro oracle m0 extracts
    unfold analyzeBusinessPatterns
    dsimp only
    rw [foldl_bpStep_date]
  refine ⟨huniv, ?_, ?_, huniv dateOracle [] [dateExtract]⟩
  · decide
  · decide

end Spira
